import Mathlib

/-!
Verification of the GA4 funnel-analysis core (`cache_manager.py` and
`funnel_report_service/funnel_analysis.py`) against its natural-language
specification.  Python floats are embedded as `ℚ`, Python ints as `ℤ`/`ℕ`,
Python values (JSON-like payloads) as the inductive `PyVal`, dicts as
association lists, and raising code as `Except String`.
-/

namespace GA4

/-- A Python/JSON value as the cache manager handles it: `None`, booleans,
integers, strings, lists and string-keyed dicts (association lists, in
insertion order, keys unique as in a Python dict). -/
inductive PyVal where
  | none
  | b (v : Bool)
  | i (v : Int)
  | s (v : String)
  | l (vs : List PyVal)
  | o (fields : List (String × PyVal))

/-- `dict.get(k, default)`: first entry with key `k`, else the default. -/
def getF (fields : List (String × PyVal)) (k : String) (d : PyVal) : PyVal :=
  match fields.lookup k with
  | some v => v
  | Option.none => d

mutual

/-- `json.dumps` with its default separators `(', ', ': ')` and key order as
stored.  String escaping of control and non-ASCII characters is not modelled;
the payloads the theorems evaluate are plain ASCII. -/
def pyDumps : PyVal → String
  | .none => "null"
  | .b true => "true"
  | .b false => "false"
  | .i v => toString v
  | .s v => "\"" ++ v ++ "\""
  | .l vs => "[" ++ pyDumpsList vs ++ "]"
  | .o fs => "\x7b" ++ pyDumpsFields fs ++ "\x7d"

def pyDumpsList : List PyVal → String
  | [] => ""
  | [v] => pyDumps v
  | v :: vs => pyDumps v ++ ", " ++ pyDumpsList vs

def pyDumpsFields : List (String × PyVal) → String
  | [] => ""
  | [(k, v)] => "\"" ++ k ++ "\": " ++ pyDumps v
  | (k, v) :: fs => "\"" ++ k ++ "\": " ++ pyDumps v ++ ", " ++ pyDumpsFields fs

end

/-- Round half to even at integer precision, as Python's `round` does on an
exactly-represented value. -/
def rhe (q : ℚ) : ℤ :=
  let f := ⌊q⌋
  let r := q - f
  if r < 1/2 then f
  else if 1/2 < r then f + 1
  else if Even f then f else f + 1

/-- Python's `round(x, nd)` for `nd` decimal digits (half to even). -/
def pyRound (nd : Nat) (q : ℚ) : ℚ :=
  (rhe (q * 10 ^ nd) : ℚ) / 10 ^ nd

/-- Python float/int division: raises `ZeroDivisionError` on a zero
denominator. -/
def pydiv (a b : ℚ) : Except String ℚ :=
  if b = 0 then .error "ZeroDivisionError" else .ok (a / b)

/-! ## `funnel_report_service/funnel_analysis.py` -/

/-- The three funnel step counts read from one dimension value's record
(`steps.get("view_item", 0)` etc.). -/
structure StepCounts where
  view_item : Nat
  add_to_cart : Nat
  purchase : Nat
deriving DecidableEq

/-- One entry of the dict `calculate_funnel_metrics` builds per dimension
value. -/
structure DimensionMetric where
  view_to_cart_rate : ℚ
  cart_to_purchase_rate : ℚ
  overall_conversion_rate : ℚ
  absolute_numbers : StepCounts
  view_to_cart_dropoff : ℤ
  cart_to_purchase_dropoff : ℤ
deriving DecidableEq

/-- The loop body of `calculate_funnel_metrics` for one dimension value:
rates guarded against zero denominators, rounded to 4 decimal places. -/
def metricsForSteps (steps : StepCounts) : DimensionMetric :=
  let view_item := steps.view_item
  let add_to_cart := steps.add_to_cart
  let purchase := steps.purchase
  let view_to_cart : ℚ := if view_item > 0 then (add_to_cart : ℚ) / view_item else 0
  let cart_to_purchase : ℚ := if add_to_cart > 0 then (purchase : ℚ) / add_to_cart else 0
  let overall : ℚ := if view_item > 0 then (purchase : ℚ) / view_item else 0
  { view_to_cart_rate := pyRound 4 view_to_cart
    cart_to_purchase_rate := pyRound 4 cart_to_purchase
    overall_conversion_rate := pyRound 4 overall
    absolute_numbers := steps
    view_to_cart_dropoff := (view_item : ℤ) - add_to_cart
    cart_to_purchase_dropoff := (add_to_cart : ℤ) - purchase }

/-- `calculate_funnel_metrics` over the whole `dimension_breakdowns` table. -/
def calculate_funnel_metrics (table : List (String × List (String × StepCounts))) :
    List (String × List (String × DimensionMetric)) :=
  table.map fun dv => (dv.1, dv.2.map fun vs => (vs.1, metricsForSteps vs.2))

/-- `config.OUTLIER_THRESHOLD`. -/
def OUTLIER_THRESHOLD : ℚ := 0.20

/-- `baseline_rates.get(k, default)`. -/
def getRate (rates : List (String × ℚ)) (k : String) (d : ℚ) : ℚ :=
  match rates.lookup k with
  | some v => v
  | Option.none => d

/-- `calculate_severity(deviation, threshold)`. -/
def calculate_severity (deviation threshold : ℚ) : String :=
  let abs_deviation := |deviation|
  if abs_deviation ≥ threshold * 2 then "critical"
  else if abs_deviation ≥ threshold * 1.5 then "high"
  else if abs_deviation ≥ threshold then "medium"
  else "low"

/-- One outlier record appended by `detect_funnel_outliers` (deviation fields
rounded to 4 decimal places, as stored in the dict). -/
structure Outlier where
  dimension : String
  dimension_value : String
  view_to_cart_rate : ℚ
  cart_to_purchase_rate : ℚ
  overall_conversion_rate : ℚ
  view_to_cart_deviation : ℚ
  cart_to_purchase_deviation : ℚ
  overall_deviation : ℚ
  absolute_numbers : StepCounts
  performance : String
  severity : String
deriving DecidableEq

/-- The body of the inner loop of `detect_funnel_outliers` for one
`(dimension, value)` pair: skip on a zero step baseline, compute the three
deviations (the overall one divides by `baseline_rates.get("overall_conversion", 1)`,
which raises if that value is present and zero), and append when any deviation
strictly exceeds the threshold. -/
def evalPair (dim : String) (baseline_rates : List (String × ℚ)) (threshold : ℚ)
    (value : String) (metrics : DimensionMetric) : Except String (Option Outlier) :=
  let baseline_view_to_cart := getRate baseline_rates "view_item_to_add_to_cart" 0
  let baseline_cart_to_purchase := getRate baseline_rates "add_to_cart_to_purchase" 0
  if baseline_view_to_cart = 0 ∨ baseline_cart_to_purchase = 0 then
    pure Option.none
  else do
    let view_to_cart_deviation ←
      pydiv (metrics.view_to_cart_rate - baseline_view_to_cart) baseline_view_to_cart
    let cart_to_purchase_deviation ←
      pydiv (metrics.cart_to_purchase_rate - baseline_cart_to_purchase) baseline_cart_to_purchase
    let overall_deviation ←
      pydiv (metrics.overall_conversion_rate - getRate baseline_rates "overall_conversion" 0)
        (getRate baseline_rates "overall_conversion" 1)
    let is_outlier :=
      |view_to_cart_deviation| > threshold ∨
      |cart_to_purchase_deviation| > threshold ∨
      |overall_deviation| > threshold
    if is_outlier then
      pure (some
        { dimension := dim
          dimension_value := value
          view_to_cart_rate := metrics.view_to_cart_rate
          cart_to_purchase_rate := metrics.cart_to_purchase_rate
          overall_conversion_rate := metrics.overall_conversion_rate
          view_to_cart_deviation := pyRound 4 view_to_cart_deviation
          cart_to_purchase_deviation := pyRound 4 cart_to_purchase_deviation
          overall_deviation := pyRound 4 overall_deviation
          absolute_numbers := metrics.absolute_numbers
          performance := if overall_deviation > 0 then "above" else "below"
          severity := calculate_severity overall_deviation threshold })
    else
      pure Option.none

/-- The inner loop of `detect_funnel_outliers`: outliers of one dimension, in
iteration order. -/
def collectOutliers (dim : String) (baseline_rates : List (String × ℚ)) (threshold : ℚ) :
    List (String × DimensionMetric) → Except String (List Outlier)
  | [] => pure []
  | vm :: rest => do
    let o ← evalPair dim baseline_rates threshold vm.1 vm.2
    let os ← collectOutliers dim baseline_rates threshold rest
    match o with
    | some out => pure (out :: os)
    | Option.none => pure os

/-- `dimension_outliers.sort(key=lambda x: abs(x["overall_deviation"]), reverse=True)`:
a stable sort by descending absolute (stored, rounded) overall deviation. -/
def sortOutliers (l : List Outlier) : List Outlier :=
  l.mergeSort fun a b => decide (|b.overall_deviation| ≤ |a.overall_deviation|)

/-- `detect_funnel_outliers(funnel_metrics, baseline_rates, threshold)`:
outliers grouped by dimension (a dimension appears only when it has at least
one outlier), each group sorted by descending absolute overall deviation.
A `none` threshold falls back to `config.OUTLIER_THRESHOLD`. -/
def detect_funnel_outliers (funnel_metrics : List (String × List (String × DimensionMetric)))
    (baseline_rates : List (String × ℚ)) (threshold? : Option ℚ) :
    Except String (List (String × List Outlier)) :=
  let threshold := threshold?.getD OUTLIER_THRESHOLD
  go threshold funnel_metrics
where
  go (threshold : ℚ) : List (String × List (String × DimensionMetric)) →
      Except String (List (String × List Outlier))
    | [] => pure []
    | dv :: rest => do
      let dimension_outliers ← collectOutliers dv.1 baseline_rates threshold dv.2
      let out ← go threshold rest
      if dimension_outliers = [] then
        pure out
      else
        pure ((dv.1, sortOutliers dimension_outliers) :: out)

/-! ## `cache_manager.py`: `CacheManager` -/

/-- Time instants are modelled as naturals.  `datetime.isoformat` renders an
instant in decimal; see `parseIso` for the inverse. -/
def isoformat (t : Nat) : String := toString t

/-- `datetime.fromisoformat`: parses a rendered instant back, raising
`ValueError` (modelled as `Except.error`) on any string that is not a
rendered instant — exactly CPython's behaviour on a corrupted timestamp. -/
def parseIso (s : String) : Except String Nat :=
  if s.length ≠ 0 ∧ s.data.all (fun c => c.isDigit) then
    .ok (s.data.foldl (fun a c => a * 10 + (c.toNat - 48)) 0)
  else
    .error "ValueError"

/-- One stored cache record: `{'timestamp': ..., 'insights': ...}`. -/
structure CacheEntry where
  timestamp : String
  insights : PyVal

/-- `del cache[key]`: remove the entry with this key (a dict holds at most
one). -/
def delKey (cache : List (String × CacheEntry)) (key : String) :
    List (String × CacheEntry) :=
  cache.eraseP (fun p => p.1 == key)

/-- `cache[key] = entry`: replace in place, or append a new entry. -/
def setKey (cache : List (String × CacheEntry)) (key : String) (entry : CacheEntry) :
    List (String × CacheEntry) :=
  if cache.any (fun p => p.1 == key) then
    cache.map (fun p => if p.1 == key then (key, entry) else p)
  else
    cache ++ [(key, entry)]

/-- `CacheManager.get_cached_insights`: miss on an absent key; parse the
stored timestamp (no exception handler around `fromisoformat`); on expiry
delete the entry and miss; otherwise hit.  Returns the result together with
the updated cache. -/
def get_cached_insights (now cache_duration : Nat)
    (cache : List (String × CacheEntry)) (key : String) :
    Except String (Option PyVal × List (String × CacheEntry)) :=
  match cache.lookup key with
  | Option.none => .ok (Option.none, cache)
  | some cached_data => do
    let cached_time ← parseIso cached_data.timestamp
    if (now : ℤ) - cached_time > (cache_duration : ℤ) then
      pure (Option.none, delKey cache key)
    else
      pure (some cached_data.insights, cache)

/-- A list comprehension / element-wise traversal whose body may raise:
stops at the first error, exactly like the Python loop it models. -/
def mapE {α β : Type} (f : α → Except String β) : List α → Except String (List β)
  | [] => .ok []
  | x :: xs => do
    let y ← f x
    let ys ← mapE f xs
    pure (y :: ys)

/-- `CacheManager._cleanup_oldest_entries`: sort the entries by parsed
timestamp (Python's `sorted` computes the key of every entry, propagating a
parse error) and delete the first `max(1, max_cache_size // 4)` of them. -/
def cleanup_oldest_entries (max_cache_size : Nat)
    (cache : List (String × CacheEntry)) :
    Except String (List (String × CacheEntry)) := do
  let entries_to_remove := max 1 (max_cache_size / 4)
  let decorated ← mapE (fun p => do
    let t ← parseIso p.2.timestamp
    pure (t, p)) cache
  let sorted_entries := decorated.mergeSort (fun a b => decide (a.1 ≤ b.1))
  let removed := (sorted_entries.take entries_to_remove).map (fun q => q.2.1)
  pure (removed.foldl delKey cache)

/-- `CacheManager.save_insights`: when the entry count is at or above
`max_cache_size`, run the cleanup first, then store the new entry under its
key with the current timestamp. -/
def save_insights (now max_cache_size : Nat) (key : String) (insights : PyVal)
    (cache : List (String × CacheEntry)) :
    Except String (List (String × CacheEntry)) := do
  let cache' ←
    if cache.length ≥ max_cache_size then
      cleanup_oldest_entries max_cache_size cache
    else
      pure cache
  pure (setKey cache' key ⟨isoformat now, insights⟩)

/-! ## `cache_manager.py`: storage optimizer -/

/-- Python slicing `x[:n]`: defined on strings and lists, a `TypeError` on
anything else. -/
def pySlice (v : PyVal) (n : Nat) : Except String PyVal :=
  match v with
  | .s str => .ok (.s (String.mk (str.data.take n)))
  | .l vs => .ok (.l (vs.take n))
  | _ => .error "TypeError"

/-- Iterating a value as a list (`TypeError`/`AttributeError` otherwise). -/
def asList : PyVal → Except String (List PyVal)
  | .l vs => .ok vs
  | _ => .error "TypeError"

/-- Reading a value as a dict for `.get` access (`AttributeError` otherwise). -/
def asObj : PyVal → Except String (List (String × PyVal))
  | .o fs => .ok fs
  | _ => .error "AttributeError"

/-- One element of the optimizer's `critical_issues` comprehension. -/
def prepCritical (i : PyVal) : Except String PyVal := do
  let io ← asObj i
  let issue ← pySlice (getF io "issue" (.s "")) 200
  pure (.o [("dimension", getF io "dimension" PyVal.none),
            ("value", getF io "value" PyVal.none),
            ("issue", issue),
            ("impact", getF io "impact" PyVal.none)])

/-- One element of the optimizer's `opportunities` comprehension. -/
def prepOpportunity (ov : PyVal) : Except String PyVal := do
  let oo ← asObj ov
  let opportunity ← pySlice (getF oo "opportunity" (.s "")) 200
  pure (.o [("dimension", getF oo "dimension" PyVal.none),
            ("value", getF oo "value" PyVal.none),
            ("opportunity", opportunity),
            ("potential_lift", getF oo "potential_lift" PyVal.none)])

/-- One element of the optimizer's `recommendations` comprehension: note the
output key `impact` is filled from the input key `expected_impact`. -/
def prepRecommendation (r : PyVal) : Except String PyVal := do
  let ro ← asObj r
  let action ← pySlice (getF ro "action" (.s "")) 150
  let impact ← pySlice (getF ro "expected_impact" (.s "")) 100
  pure (.o [("priority", getF ro "priority" PyVal.none),
            ("action", action),
            ("impact", impact),
            ("implementation", getF ro "implementation" PyVal.none)])

/-- `CacheManager.prepare_for_n8n_storage`: keep `model`, and at most 5
truncated entries of each of the three list categories. -/
def prepare_for_n8n_storage (insights : List (String × PyVal)) :
    Except String (List (String × PyVal)) := do
  let critical_issues ← mapE prepCritical ((← asList (getF insights "critical_issues" (.l []))).take 5)
  let opportunities ← mapE prepOpportunity ((← asList (getF insights "opportunities" (.l []))).take 5)
  let recommendations ← mapE prepRecommendation ((← asList (getF insights "recommendations" (.l []))).take 5)
  pure [("model", getF insights "model" PyVal.none),
        ("critical_issues", .l critical_issues),
        ("opportunities", .l opportunities),
        ("recommendations", .l recommendations)]

/-! ## `cache_manager.py`: fingerprinting -/

/-- String concatenation with `", "` between elements. -/
def joinComma : List String → String
  | [] => ""
  | [s] => s
  | s :: rest => s ++ ", " ++ joinComma rest

/-- `json.dumps(..., sort_keys=True)`: like `pyDumps` but with every dict's
keys serialized in sorted order. -/
def dumpsSorted : PyVal → String
  | .none => "null"
  | .b true => "true"
  | .b false => "false"
  | .i v => toString v
  | .s v => "\"" ++ v ++ "\""
  | .l vs => "[" ++ joinComma (vs.attach.map fun x => dumpsSorted x.1) ++ "]"
  | .o fs => "\x7b" ++
      joinComma (((fs.mergeSort fun a b => decide (a.1 ≤ b.1)).attach.map
        fun x => "\"" ++ x.1.1 ++ "\": " ++ dumpsSorted x.1.2)) ++ "\x7d"
termination_by v => sizeOf v
decreasing_by
  · have := List.sizeOf_lt_of_mem x.2
    simp only [PyVal.l.sizeOf_spec]
    omega
  · have hx : x.1 ∈ fs := List.mem_mergeSort.mp x.2
    have h1 := List.sizeOf_lt_of_mem hx
    have h2 : sizeOf x.1.2 < sizeOf x.1 := by
      obtain ⟨a, b⟩ := x.1
      simp only [Prod.mk.sizeOf_spec]
      omega
    simp only [PyVal.o.sizeOf_spec]
    omega

/-- `hashlib.md5(...).hexdigest()`, modelled as a pure 128-bit digest of the
serialized request rendered in hex; the development relies only on the digest
being a function of its input string. -/
def md5Hex (s : String) : String :=
  String.mk (Nat.toDigits 16 (s.data.foldl (fun a c => (a * 131 + c.toNat) % 2 ^ 128) 5381))

/-- Reading a value as a string (the dimensions Python sorts and serializes
are strings; anything else fails the comparison/serialization). -/
def asStr : PyVal → Except String String
  | .s v => .ok v
  | _ => .error "TypeError"

/-- `CacheManager.generate_cache_key`: serialize
`{'dimensions': sorted(...), 'property_id': ..., 'date_range': ...,
'baseline_rates': ...}` with `sort_keys=True` and hash it. -/
def generate_cache_key (data : List (String × PyVal)) : Except String String := do
  let dims ← mapE asStr (← asList (getF data "dimensions" (.l [])))
  let sortedDims := dims.mergeSort (fun a b => decide (a ≤ b))
  let cache_str := dumpsSorted (.o
    [("dimensions", .l (sortedDims.map PyVal.s)),
     ("property_id", getF data "property_id" PyVal.none),
     ("date_range", getF data "date_range" PyVal.none),
     ("baseline_rates", getF data "baseline_rates" PyVal.none)])
  pure (md5Hex cache_str)

/-! ## `cache_manager.py`: `BatchProcessor` -/

/-- Python `int()` on a float: truncation toward zero. -/
def pytrunc (q : ℚ) : ℤ := if 0 ≤ q then ⌊q⌋ else -⌊-q⌋

/-- `len(json.dumps(sample_record))`. -/
def recordSize (sample_record : List (String × PyVal)) : Nat :=
  (pyDumps (.o sample_record)).length

/-- The body of `BatchProcessor.calculate_optimal_batch_size` after the
record size is measured: `max_records = int(max_storage_bytes / record_size * 0.8)`
(a zero record size would raise `ZeroDivisionError` — there is no guard),
then the two-way branch on `total_records`. -/
def batchSizeCore (max_batch_size : Nat) (max_storage_bytes : ℚ)
    (record_size total_records : Nat) : Except String ℤ :=
  if record_size = 0 then .error "ZeroDivisionError"
  else
    let max_records := pytrunc (max_storage_bytes / (record_size : ℚ) * 0.8)
    if (total_records : ℤ) ≤ max_records then
      .ok (min (total_records : ℤ) (max_batch_size : ℤ))
    else
      .ok (min (Int.fdiv max_records 30) (max_batch_size : ℤ))

/-- `BatchProcessor.calculate_optimal_batch_size` (the constructor turns
`max_storage_mb` into `max_storage_bytes = max_storage_mb * 1024 * 1024`). -/
def calculate_optimal_batch_size (max_batch_size : Nat) (max_storage_mb : ℚ)
    (sample_record : List (String × PyVal)) (total_records : Nat) : Except String ℤ :=
  batchSizeCore max_batch_size (max_storage_mb * 1024 * 1024)
    (recordSize sample_record) total_records

/-- What `BatchProcessor.estimate_storage_usage` returns. -/
structure StorageStats where
  size_bytes : ℚ
  size_kb : ℚ
  size_mb : ℚ
  usage_percent : ℚ
  remaining_mb : ℚ
  can_store : Bool
  warning : Option String

/-- The arithmetic of `BatchProcessor.estimate_storage_usage` on the
serialized size. -/
def storageFlags (size_bytes : ℚ) : StorageStats :=
  let size_mb := size_bytes / 1024 / 1024
  let usage_pct := size_mb / 54 * 100
  { size_bytes := size_bytes
    size_kb := pyRound 2 (size_bytes / 1024)
    size_mb := pyRound 2 size_mb
    usage_percent := pyRound 2 usage_pct
    remaining_mb := pyRound 2 (54 - size_mb)
    can_store := decide (usage_pct < 90)
    warning := if usage_pct > 90 then some "Storage nearly full!" else Option.none }

/-- `BatchProcessor.estimate_storage_usage(data)`. -/
def estimate_storage_usage (data : PyVal) : StorageStats :=
  storageFlags ((pyDumps data).length : ℚ)

/-! ## Derived characterizations used by the theorems

These are not source functions: each is a pure description of code above,
proved equal to it under the hypotheses stated by the theorems that use it. -/

/-- The value of `evalPair` when no division raises: a total counterpart,
proved equal to `evalPair` whenever the `overall_conversion` denominator is
non-zero (`evalPair_eq_fun`). -/
def evalPairFun (dim : String) (baseline_rates : List (String × ℚ)) (threshold : ℚ)
    (value : String) (metrics : DimensionMetric) : Option Outlier :=
  let bvtc := getRate baseline_rates "view_item_to_add_to_cart" 0
  let bctp := getRate baseline_rates "add_to_cart_to_purchase" 0
  if bvtc = 0 ∨ bctp = 0 then Option.none
  else
    let d1 := (metrics.view_to_cart_rate - bvtc) / bvtc
    let d2 := (metrics.cart_to_purchase_rate - bctp) / bctp
    let d3 := (metrics.overall_conversion_rate - getRate baseline_rates "overall_conversion" 0) /
      getRate baseline_rates "overall_conversion" 1
    if |d1| > threshold ∨ |d2| > threshold ∨ |d3| > threshold then
      some
        { dimension := dim
          dimension_value := value
          view_to_cart_rate := metrics.view_to_cart_rate
          cart_to_purchase_rate := metrics.cart_to_purchase_rate
          overall_conversion_rate := metrics.overall_conversion_rate
          view_to_cart_deviation := pyRound 4 d1
          cart_to_purchase_deviation := pyRound 4 d2
          overall_deviation := pyRound 4 d3
          absolute_numbers := metrics.absolute_numbers
          performance := if d3 > 0 then "above" else "below"
          severity := calculate_severity d3 threshold }
    else Option.none

/-- The grouped output of `detect_funnel_outliers` when no division raises;
proved equal to it in `detect_eq_groupsFun`. -/
def groupsFun (baseline_rates : List (String × ℚ)) (threshold : ℚ) :
    List (String × List (String × DimensionMetric)) → List (String × List Outlier)
  | [] => []
  | dv :: rest =>
    let douts := dv.2.filterMap (fun vm => evalPairFun dv.1 baseline_rates threshold vm.1 vm.2)
    if douts = [] then groupsFun baseline_rates threshold rest
    else (dv.1, sortOutliers douts) :: groupsFun baseline_rates threshold rest

/-- `(dimension, value)` appears among the returned outliers. -/
def flaggedOutlier (out : List (String × List Outlier)) (dim value : String) : Prop :=
  ∃ os, out.lookup dim = some os ∧ ∃ o ∈ os, o.dimension_value = value

/-- A value the optimizer has already sliced to at most `n` items: slicing it
again is the identity. -/
def SlicedVal (n : Nat) (v : PyVal) : Prop :=
  (∃ s : String, v = .s s ∧ s.data.length ≤ n) ∨ (∃ vs, v = .l vs ∧ vs.length ≤ n)

/-- The shape of a stored critical-issue record after one optimizer pass. -/
def CritShape (v : PyVal) : Prop :=
  ∃ d vv iss imp,
    v = .o [("dimension", d), ("value", vv), ("issue", iss), ("impact", imp)] ∧
    SlicedVal 200 iss

/-- The shape of a stored opportunity record after one optimizer pass. -/
def OppShape (v : PyVal) : Prop :=
  ∃ d vv opp lift,
    v = .o [("dimension", d), ("value", vv), ("opportunity", opp), ("potential_lift", lift)] ∧
    SlicedVal 200 opp

/-- The shape of a stored recommendation record after one optimizer pass. -/
def RecShape (v : PyVal) : Prop :=
  ∃ p a i impl,
    v = .o [("priority", p), ("action", a), ("impact", i), ("implementation", impl)] ∧
    SlicedVal 150 a ∧ SlicedVal 100 i

/-- The shape of any successful `prepare_for_n8n_storage` output. -/
def PreparedShape (y : List (String × PyVal)) : Prop :=
  ∃ m cs os rs,
    y = [("model", m), ("critical_issues", .l cs), ("opportunities", .l os),
         ("recommendations", .l rs)] ∧
    cs.length ≤ 5 ∧ os.length ≤ 5 ∧ rs.length ≤ 5 ∧
    (∀ c ∈ cs, CritShape c) ∧ (∀ o ∈ os, OppShape o) ∧ (∀ r ∈ rs, RecShape r)

/-- Collapse a stored recommendation's `impact` to the empty string. -/
def resetRecImpact : PyVal → PyVal
  | .o fs => .o (fs.map fun kv => if kv.1 = "impact" then (kv.1, .s "") else kv)
  | v => v

/-- The exact effect of a second optimizer pass on an optimized payload:
every stored recommendation's `impact` collapses to the empty string (the
pass reads `expected_impact`, which the first pass renamed to `impact`);
everything else is unchanged. -/
def resetRecImpacts (y : List (String × PyVal)) : List (String × PyVal) :=
  y.map fun kv =>
    if kv.1 = "recommendations" then
      (kv.1,
        match kv.2 with
        | .l rs => .l (rs.map resetRecImpact)
        | v => v)
    else kv

/-! ## Concrete inputs used by the evaluation theorems -/

/-- The concrete payload of the C3 counterexample. -/
def c3ex0 : List (String × PyVal) :=
  [("recommendations", .l [.o [("priority", .s "high"),
    ("action", .s "fix checkout"), ("expected_impact", .s "big win"),
    ("implementation", .s "sprint 1")]])]

/-- One optimizer pass over `c3ex0`. -/
def c3y1 : List (String × PyVal) :=
  [("model", PyVal.none), ("critical_issues", .l []), ("opportunities", .l []),
   ("recommendations", .l [.o [("priority", .s "high"),
     ("action", .s "fix checkout"), ("impact", .s "big win"),
     ("implementation", .s "sprint 1")]])]

/-- Two optimizer passes over `c3ex0`: the `impact` text is gone. -/
def c3y2 : List (String × PyVal) :=
  [("model", PyVal.none), ("critical_issues", .l []), ("opportunities", .l []),
   ("recommendations", .l [.o [("priority", .s "high"),
     ("action", .s "fix checkout"), ("impact", .s ""),
     ("implementation", .s "sprint 1")]])]

/-- The metrics table of the C6 witness: a 3× view-to-cart rate against a
baseline of 1 (a +200% deviation). -/
def c6metric : DimensionMetric :=
  { view_to_cart_rate := 3, cart_to_purchase_rate := 1, overall_conversion_rate := 1,
    absolute_numbers := ⟨1, 1, 1⟩, view_to_cart_dropoff := 0, cart_to_purchase_dropoff := 0 }

/-- The baseline of the C6 witness (all three rates 1). -/
def c6baseline : List (String × ℚ) :=
  [("view_item_to_add_to_cart", 1), ("add_to_cart_to_purchase", 1), ("overall_conversion", 1)]

/-- The metrics record of the C1 failing input. -/
def c1metric : DimensionMetric :=
  { view_to_cart_rate := 1, cart_to_purchase_rate := 1, overall_conversion_rate := 1,
    absolute_numbers := ⟨100, 50, 10⟩, view_to_cart_dropoff := 50,
    cart_to_purchase_dropoff := 40 }

/-- The C1 failing baseline: step baselines non-zero, `overall_conversion`
*present* and zero, so `baseline_rates.get("overall_conversion", 1)`
returns 0 and the deviation divides by zero. -/
def c1baseline : List (String × ℚ) :=
  [("view_item_to_add_to_cart", 1), ("add_to_cart_to_purchase", 1), ("overall_conversion", 0)]

/-! ## Arithmetic lemmas about the rounding model -/

theorem rhe_nonneg {q : ℚ} (h : 0 ≤ q) : 0 ≤ rhe q := by
  unfold rhe
  have hf : (0 : ℤ) ≤ ⌊q⌋ := Int.floor_nonneg.mpr h
  dsimp only
  split
  · exact hf
  · split
    · omega
    · split <;> omega

theorem rhe_le_int {q : ℚ} {n : ℤ} (h : q ≤ n) : rhe q ≤ n := by
  have hf : ⌊q⌋ ≤ n := by
    have := Int.floor_le_floor h
    simpa using this
  by_cases heq : ⌊q⌋ = n
  · have hr : q - (⌊q⌋ : ℚ) ≤ 0 := by
      have : (n : ℚ) ≤ (⌊q⌋ : ℚ) := by exact_mod_cast heq.ge
      linarith
    unfold rhe
    dsimp only
    split
    · exact hf
    · rename_i hlt
      exact absurd (lt_of_le_of_lt hr (by norm_num)) hlt
  · have hlt : ⌊q⌋ + 1 ≤ n := by omega
    unfold rhe
    dsimp only
    split
    · exact hf
    · split
      · exact hlt
      · split
        · exact hf
        · exact hlt

theorem pyRound_nonneg {nd : Nat} {q : ℚ} (h : 0 ≤ q) : 0 ≤ pyRound nd q := by
  unfold pyRound
  apply div_nonneg
  · exact_mod_cast rhe_nonneg (by positivity)
  · positivity

theorem pyRound_le_one {nd : Nat} {q : ℚ} (h : q ≤ 1) : pyRound nd q ≤ 1 := by
  unfold pyRound
  rw [div_le_one (by positivity)]
  have : rhe (q * 10 ^ nd) ≤ (10 ^ nd : ℤ) := by
    apply rhe_le_int
    push_cast
    calc q * 10 ^ nd ≤ 1 * 10 ^ nd := by
          apply mul_le_mul_of_nonneg_right h (by positivity)
      _ = (10 : ℚ) ^ nd := one_mul _
  exact_mod_cast this

theorem rhe_intCast (n : ℤ) : rhe (n : ℚ) = n := by
  unfold rhe
  simp only [Int.floor_intCast, sub_self]
  norm_num

theorem pyRound_eq_div {nd : Nat} {q : ℚ} {m : ℤ} (h : q * 10 ^ nd = (m : ℚ)) :
    pyRound nd q = (m : ℚ) / 10 ^ nd := by
  unfold pyRound
  rw [h, rhe_intCast]

theorem pyRound_zero (nd : Nat) : pyRound nd 0 = 0 := by
  rw [pyRound_eq_div (m := 0) (by norm_num)]
  norm_num

/-! ## C5 — `calculate_funnel_metrics` rate safety -/

/-- **C5, corrected.**  `calculate_funnel_metrics` raises no exception and
resolves every zero denominator to a rate of 0, and all rates are
non-negative; but a rate is bounded by 1 only when the step counts are
monotone (`add_to_cart ≤ view_item`, `purchase ≤ add_to_cart`).  On
malformed input with a later step exceeding an earlier one a rate exceeds 1
(see the counterexample). -/
theorem c5_funnel_metrics_rates (steps : StepCounts) :
    (0 ≤ (metricsForSteps steps).view_to_cart_rate ∧
     0 ≤ (metricsForSteps steps).cart_to_purchase_rate ∧
     0 ≤ (metricsForSteps steps).overall_conversion_rate) ∧
    (steps.view_item = 0 →
      (metricsForSteps steps).view_to_cart_rate = 0 ∧
      (metricsForSteps steps).overall_conversion_rate = 0) ∧
    (steps.add_to_cart = 0 → (metricsForSteps steps).cart_to_purchase_rate = 0) ∧
    (steps.add_to_cart ≤ steps.view_item → steps.purchase ≤ steps.add_to_cart →
      (metricsForSteps steps).view_to_cart_rate ≤ 1 ∧
      (metricsForSteps steps).cart_to_purchase_rate ≤ 1 ∧
      (metricsForSteps steps).overall_conversion_rate ≤ 1) := by
  have hvtc : (metricsForSteps steps).view_to_cart_rate =
      pyRound 4 (if steps.view_item > 0 then (steps.add_to_cart : ℚ) / steps.view_item else 0) := rfl
  have hctp : (metricsForSteps steps).cart_to_purchase_rate =
      pyRound 4 (if steps.add_to_cart > 0 then (steps.purchase : ℚ) / steps.add_to_cart else 0) := rfl
  have hov : (metricsForSteps steps).overall_conversion_rate =
      pyRound 4 (if steps.view_item > 0 then (steps.purchase : ℚ) / steps.view_item else 0) := rfl
  refine ⟨⟨?_, ?_, ?_⟩, ?_, ?_, ?_⟩
  · rw [hvtc]
    apply pyRound_nonneg
    split
    · positivity
    · exact le_refl 0
  · rw [hctp]
    apply pyRound_nonneg
    split
    · positivity
    · exact le_refl 0
  · rw [hov]
    apply pyRound_nonneg
    split
    · positivity
    · exact le_refl 0
  · intro h
    rw [hvtc, hov, if_neg (by omega), if_neg (by omega), pyRound_zero]
    exact ⟨rfl, rfl⟩
  · intro h
    rw [hctp, if_neg (by omega), pyRound_zero]
  · intro h1 h2
    refine ⟨?_, ?_, ?_⟩
    · rw [hvtc]
      apply pyRound_le_one
      split
      · rename_i hv
        rw [div_le_one (by exact_mod_cast hv)]
        exact_mod_cast h1
      · norm_num
    · rw [hctp]
      apply pyRound_le_one
      split
      · rename_i hc
        rw [div_le_one (by exact_mod_cast hc)]
        exact_mod_cast h2
      · norm_num
    · rw [hov]
      apply pyRound_le_one
      split
      · rename_i hv
        rw [div_le_one (by exact_mod_cast hv)]
        exact_mod_cast le_trans h2 h1
      · norm_num

/-- **C5, counterexample.**  With step counts `view_item = 1`,
`add_to_cart = 2` (a later step exceeding an earlier one, which the code
tolerates), the computed view-to-cart rate is 2, outside `[0, 1]`. -/
theorem c5_rate_above_one_counterexample :
    (metricsForSteps ⟨1, 2, 0⟩).view_to_cart_rate = 2 ∧ ¬((2 : ℚ) ≤ 1) := by
  constructor
  · have h : (metricsForSteps ⟨1, 2, 0⟩).view_to_cart_rate = pyRound 4 ((2 : ℚ) / 1) := by
      norm_num [metricsForSteps]
    rw [h, pyRound_eq_div (m := 20000) (by norm_num)]
    norm_num
  · norm_num

/-! ## C4 — `calculate_optimal_batch_size` -/

theorem recordSize_ge_two (fs : List (String × PyVal)) : 2 ≤ recordSize fs := by
  unfold recordSize
  rw [show pyDumps (.o fs) = "\x7b" ++ pyDumpsFields fs ++ "\x7d" from rfl]
  simp only [String.length_append]
  have h1 : ("\x7b" : String).length = 1 := rfl
  have h2 : ("\x7d" : String).length = 1 := rfl
  omega

/-- **C4, corrected (amended).**  `calculate_optimal_batch_size` computes
`max_records = floor(storage_budget_bytes / record_size × 0.8)` and branches
exactly as the claim states; but there is no `record_size == 0` guard in the
code — instead `record_size = len(json.dumps(sample_record))` is at least 2
for every sample record, so the division never executes with a zero
denominator (and `batchSizeCore` shows a zero record size would raise, not
fall back). -/
theorem c4_optimal_batch_size (max_batch_size : Nat) (max_storage_mb : ℚ)
    (sample_record : List (String × PyVal)) (total_records : Nat)
    (hmb : 0 ≤ max_storage_mb) :
    2 ≤ recordSize sample_record ∧
    calculate_optimal_batch_size max_batch_size max_storage_mb sample_record total_records =
      (if (total_records : ℤ) ≤
          ⌊max_storage_mb * 1024 * 1024 / (recordSize sample_record : ℚ) * 0.8⌋ then
        Except.ok (min (total_records : ℤ) (max_batch_size : ℤ))
      else
        Except.ok (min
          (Int.fdiv ⌊max_storage_mb * 1024 * 1024 / (recordSize sample_record : ℚ) * 0.8⌋ 30)
          (max_batch_size : ℤ))) := by
  have h2 := recordSize_ge_two sample_record
  refine ⟨h2, ?_⟩
  unfold calculate_optimal_batch_size batchSizeCore
  rw [if_neg (by omega : ¬ recordSize sample_record = 0)]
  have hq : (0 : ℚ) ≤ max_storage_mb * 1024 * 1024 / (recordSize sample_record : ℚ) * 0.8 := by
    apply mul_nonneg
    · apply div_nonneg (by positivity) (by positivity)
    · norm_num
  rw [show pytrunc (max_storage_mb * 1024 * 1024 / (recordSize sample_record : ℚ) * 0.8) =
      ⌊max_storage_mb * 1024 * 1024 / (recordSize sample_record : ℚ) * 0.8⌋ from if_pos hq]

/-- **C4, witness.** -/
theorem c4_optimal_batch_size_witness :
    2 ≤ recordSize [] ∧
    calculate_optimal_batch_size 100 50 [] 100000 =
      (if (100000 : ℤ) ≤ ⌊(50 : ℚ) * 1024 * 1024 / (recordSize [] : ℚ) * 0.8⌋ then
        Except.ok (min (100000 : ℤ) ((100 : Nat) : ℤ))
      else
        Except.ok (min (Int.fdiv ⌊(50 : ℚ) * 1024 * 1024 / (recordSize [] : ℚ) * 0.8⌋ 30)
          ((100 : Nat) : ℤ))) :=
  c4_optimal_batch_size 100 50 [] 100000 (by norm_num)

/-- **C4, counterexample.**  The claimed zero-size fallback does not exist:
the batch-size computation run with `record_size = 0` raises
`ZeroDivisionError` instead of returning `max_batch_size`. -/
theorem c4_zero_record_size_counterexample :
    batchSizeCore 100 (50 * 1024 * 1024) 0 1000 = .error "ZeroDivisionError" ∧
    (Except.error "ZeroDivisionError" : Except String ℤ) ≠ .ok ((100 : Nat) : ℤ) := by
  constructor
  · rfl
  · simp

/-! ## C10 — `estimate_storage_usage` thresholds -/

/-- **C10, confirmed.**  `can_store` is true iff the serialized size is
strictly below 90% of the 54 MB quota (not below 100%); the warning is
non-`None` iff usage strictly exceeds 90%; at exactly 90% the payload is
reported unstorable with no warning; and between 90% and 100% of the quota
the payload is reported unstorable although it fits. -/
theorem c10_storage_thresholds (data : PyVal) (size_bytes : ℚ) :
    estimate_storage_usage data = storageFlags ((pyDumps data).length : ℚ) ∧
    ((storageFlags size_bytes).can_store = true ↔
      size_bytes < 9 / 10 * (54 * 1024 * 1024)) ∧
    ((storageFlags size_bytes).warning ≠ Option.none ↔
      9 / 10 * (54 * 1024 * 1024) < size_bytes) ∧
    (size_bytes / 1024 / 1024 / 54 * 100 = 90 →
      (storageFlags size_bytes).can_store = false ∧
      (storageFlags size_bytes).warning = Option.none) ∧
    (9 / 10 * (54 * 1024 * 1024) ≤ size_bytes → size_bytes < 54 * 1024 * 1024 →
      (storageFlags size_bytes).can_store = false) := by
  have hcan : (storageFlags size_bytes).can_store =
      decide (size_bytes / 1024 / 1024 / 54 * 100 < 90) := rfl
  have hw : (storageFlags size_bytes).warning =
      (if size_bytes / 1024 / 1024 / 54 * 100 > 90 then some "Storage nearly full!"
       else Option.none) := rfl
  have key : size_bytes / 1024 / 1024 / 54 * 100 = size_bytes * (25 / 14155776) := by ring
  refine ⟨rfl, ?_, ?_, ?_, ?_⟩
  · rw [hcan, decide_eq_true_iff, key]
    constructor <;> intro h <;> linarith
  · rw [hw]
    split
    · rename_i h
      rw [key] at h
      simp only [ne_eq, reduceCtorEq, not_false_iff, true_iff]
      linarith
    · rename_i h
      rw [key] at h
      simp only [ne_eq, not_true_eq_false, false_iff, not_lt]
      linarith
  · intro h
    constructor
    · rw [hcan, decide_eq_false_iff_not]
      rw [h]
      norm_num
    · rw [hw, if_neg]
      rw [h]
      norm_num
  · intro h1 h2
    rw [hcan, decide_eq_false_iff_not, key]
    intro hlt
    linarith

/-! ## C2 — corrupted timestamps in `get_cached_insights` -/

/-- **C2, corrected (amended).**  A stored entry whose timestamp does not
parse makes `get_cached_insights` raise: the `ValueError` from
`datetime.fromisoformat` propagates to the caller (there is no handler), so
a corrupted timestamp is *not* degraded to a cache miss. -/
theorem c2_corrupted_timestamp_propagates (now cache_duration : Nat)
    (cache : List (String × CacheEntry)) (key : String) (entry : CacheEntry) (msg : String)
    (hfound : cache.lookup key = some entry)
    (hbad : parseIso entry.timestamp = .error msg) :
    get_cached_insights now cache_duration cache key = .error msg := by
  unfold get_cached_insights
  rw [hfound]
  show (parseIso entry.timestamp >>= fun _ => _) = Except.error msg
  rw [hbad]
  rfl

/-- **C2, witness.** -/
theorem c2_corrupted_timestamp_propagates_witness :
    get_cached_insights 7 24 [("f", ⟨"zz", PyVal.s "p"⟩)] "f" = .error "ValueError" :=
  c2_corrupted_timestamp_propagates 7 24 [("f", ⟨"zz", PyVal.s "p"⟩)] "f"
    ⟨"zz", PyVal.s "p"⟩ "ValueError" rfl rfl

/-- **C2, counterexample.**  On a cache whose only entry has the unparseable
timestamp `"not-a-date"`, `get_cached_insights` returns the propagated error,
not the cache-miss value `None` the claim requires. -/
theorem c2_miss_on_corruption_counterexample :
    get_cached_insights 5 10 [("k", ⟨"not-a-date", PyVal.none⟩)] "k" = .error "ValueError" ∧
    (Except.error "ValueError" :
        Except String (Option PyVal × List (String × CacheEntry))) ≠
      .ok (Option.none, [("k", ⟨"not-a-date", PyVal.none⟩)]) := by
  constructor
  · rfl
  · simp

/-! ## C8 — `save_insights` keeps the entry count bounded -/

theorem delKey_length_le (cache : List (String × CacheEntry)) (key : String) :
    (delKey cache key).length ≤ cache.length :=
  List.length_eraseP_le cache

theorem delKey_length_of_mem {cache : List (String × CacheEntry)} {key : String}
    (h : key ∈ cache.map Prod.fst) : (delKey cache key).length = cache.length - 1 := by
  obtain ⟨p, hp, hk⟩ := List.mem_map.mp h
  exact List.length_eraseP_of_mem hp (by simp [hk])

theorem mem_map_fst_delKey {cache : List (String × CacheEntry)} {k key : String}
    (hne : k ≠ key) (h : k ∈ cache.map Prod.fst) : k ∈ (delKey cache key).map Prod.fst := by
  obtain ⟨p, hp, hk⟩ := List.mem_map.mp h
  refine List.mem_map.mpr ⟨p, ?_, hk⟩
  unfold delKey
  rw [List.mem_eraseP_of_neg (by simp [hk, hne])]
  exact hp

theorem foldl_delKey_le (ks : List String) :
    ∀ cache : List (String × CacheEntry),
      (List.foldl delKey cache ks).length ≤ cache.length := by
  induction ks with
  | nil => intro cache; simp
  | cons k ks ih =>
    intro cache
    calc (List.foldl delKey (delKey cache k) ks).length
        ≤ (delKey cache k).length := ih _
      _ ≤ cache.length := delKey_length_le _ _

theorem foldl_delKey_count (ks : List String) :
    ∀ cache : List (String × CacheEntry), ks.Nodup →
      (∀ k ∈ ks, k ∈ cache.map Prod.fst) →
      (List.foldl delKey cache ks).length = cache.length - ks.length := by
  induction ks with
  | nil => intro cache _ _; simp
  | cons k ks ih =>
    intro cache hnd hmem
    have hk : k ∈ cache.map Prod.fst := hmem k (List.mem_cons_self k ks)
    have hkn : k ∉ ks := (List.nodup_cons.mp hnd).1
    have h1 : (delKey cache k).length = cache.length - 1 := delKey_length_of_mem hk
    have hmem' : ∀ k' ∈ ks, k' ∈ (delKey cache k).map Prod.fst := by
      intro k' hk'
      refine mem_map_fst_delKey ?_ (hmem k' (List.mem_cons_of_mem _ hk'))
      rintro rfl
      exact hkn hk'
    have hlen : 1 ≤ cache.length := by
      rcases cache with _ | _
      · simp at hk
      · simp
    rw [List.foldl_cons, ih _ (List.nodup_cons.mp hnd).2 hmem', h1, List.length_cons]
    omega

theorem setKey_length_le (cache : List (String × CacheEntry)) (key : String)
    (entry : CacheEntry) : (setKey cache key entry).length ≤ cache.length + 1 := by
  unfold setKey
  split
  · simp
  · simp

theorem mapE_decorate_ok {cache : List (String × CacheEntry)}
    (hts : ∀ p ∈ cache, ∃ t, parseIso p.2.timestamp = Except.ok t) :
    ∃ dec : List (Nat × (String × CacheEntry)),
      mapE (fun p => do
        let t ← parseIso p.2.timestamp
        pure (t, p)) cache = .ok dec ∧
      dec.map Prod.snd = cache := by
  induction cache with
  | nil => exact ⟨[], rfl, rfl⟩
  | cons p rest ih =>
    obtain ⟨t, ht⟩ := hts p (List.mem_cons_self p rest)
    obtain ⟨dec, hdec, hsnd⟩ := ih (fun q hq => hts q (List.mem_cons_of_mem _ hq))
    refine ⟨(t, p) :: dec, ?_, by simp [hsnd]⟩
    show ((parseIso p.2.timestamp >>= fun t => pure (t, p)) >>= fun y =>
      mapE _ rest >>= fun ys => pure (y :: ys)) = _
    rw [ht, hdec]
    rfl

theorem cleanup_ok {max_cache_size : Nat} {cache : List (String × CacheEntry)}
    (hts : ∀ p ∈ cache, ∃ t, parseIso p.2.timestamp = Except.ok t)
    (hnd : (cache.map Prod.fst).Nodup) :
    ∃ cleaned, cleanup_oldest_entries max_cache_size cache = .ok cleaned ∧
      cleaned.length = cache.length - min (max 1 (max_cache_size / 4)) cache.length := by
  obtain ⟨dec, hdec, hsnd⟩ := mapE_decorate_ok hts
  set k := max 1 (max_cache_size / 4) with hk
  set sorted := dec.mergeSort (fun a b => decide (a.1 ≤ b.1)) with hsorted
  set removed := (sorted.take k).map (fun q => q.2.1) with hremoved
  have hperm : sorted.Perm dec := List.mergeSort_perm dec _
  have hkeysperm : (sorted.map (fun q => q.2.1)).Perm (cache.map Prod.fst) := by
    have h1 : (sorted.map (fun q : Nat × (String × CacheEntry) => q.2.1)).Perm
        (dec.map (fun q : Nat × (String × CacheEntry) => q.2.1)) := hperm.map _
    have h2 : dec.map (fun q : Nat × (String × CacheEntry) => q.2.1) = cache.map Prod.fst := by
      rw [← hsnd, List.map_map]
      rfl
    rwa [h2] at h1
  have hndrem : removed.Nodup := by
    have heq : removed = (sorted.map (fun q => q.2.1)).take k := by
      rw [hremoved, List.map_take]
    rw [heq]
    exact (hkeysperm.nodup_iff.mpr hnd).sublist (List.take_sublist _ _)
  have hmemrem : ∀ key ∈ removed, key ∈ cache.map Prod.fst := by
    intro key hkey
    have : key ∈ sorted.map (fun q => q.2.1) := by
      have hsub : (sorted.take k).Sublist sorted := List.take_sublist _ _
      obtain ⟨q, hq, hqe⟩ := List.mem_map.mp hkey
      exact List.mem_map.mpr ⟨q, hsub.mem hq, hqe⟩
    exact hkeysperm.mem_iff.mp this
  have hlenrem : removed.length = min k cache.length := by
    rw [hremoved, List.length_map, List.length_take]
    congr 1
    calc sorted.length = dec.length := hperm.length_eq
      _ = (dec.map Prod.snd).length := (List.length_map _ _).symm
      _ = cache.length := by rw [hsnd]
  refine ⟨List.foldl delKey cache removed, ?_, ?_⟩
  · unfold cleanup_oldest_entries
    show (mapE _ cache >>= fun decorated => _) = _
    rw [hdec]
    rfl
  · rw [foldl_delKey_count removed cache hndrem hmemrem, hlenrem]

/-- **C8, corrected (amended).**  Provided `max_cache_size ≥ 1` (and a
well-formed cache: unique keys, parseable stored timestamps),
`save_insights` preserves the bound: when the entry count is at or above
`max_cache_size` it first runs `_cleanup_oldest_entries` — removing exactly
`max(1, max_cache_size // 4)` of the entries, by sorted timestamp —
strictly before inserting, and the resulting count never exceeds
`max_cache_size`.  For `max_cache_size = 0` the bound fails (see the
counterexample), so the claim is amended to require a positive bound. -/
theorem c8_save_insights_bound (now max_cache_size : Nat) (key : String)
    (insights : PyVal) (cache : List (String × CacheEntry))
    (hmax : 1 ≤ max_cache_size)
    (hlen : cache.length ≤ max_cache_size)
    (hnd : (cache.map Prod.fst).Nodup)
    (hts : ∀ p ∈ cache, ∃ t, parseIso p.2.timestamp = Except.ok t) :
    ∃ cache', save_insights now max_cache_size key insights cache = .ok cache' ∧
      cache'.length ≤ max_cache_size ∧
      (max_cache_size ≤ cache.length →
        ∃ cleaned, cleanup_oldest_entries max_cache_size cache = .ok cleaned ∧
          cleaned.length =
            cache.length - min (max 1 (max_cache_size / 4)) cache.length ∧
          cache' = setKey cleaned key ⟨isoformat now, insights⟩) := by
  by_cases htrig : max_cache_size ≤ cache.length
  · have hne : cache.length = max_cache_size := le_antisymm hlen htrig
    obtain ⟨cleaned, hc, hclen⟩ := cleanup_ok hts hnd
    refine ⟨setKey cleaned key ⟨isoformat now, insights⟩, ?_, ?_, ?_⟩
    · unfold save_insights
      rw [if_pos (by omega : cache.length ≥ max_cache_size)]
      show (cleanup_oldest_entries max_cache_size cache >>= fun c => _) = _
      rw [hc]
      rfl
    · have hmin : 1 ≤ min (max 1 (max_cache_size / 4)) cache.length := by
        apply le_min
        · exact le_max_left 1 _
        · omega
      have := setKey_length_le cleaned key ⟨isoformat now, insights⟩
      omega
    · intro _
      exact ⟨cleaned, hc, hclen, rfl⟩
  · push_neg at htrig
    refine ⟨setKey cache key ⟨isoformat now, insights⟩, ?_, ?_, ?_⟩
    · unfold save_insights
      rw [if_neg (by omega : ¬ cache.length ≥ max_cache_size)]
      rfl
    · have := setKey_length_le cache key ⟨isoformat now, insights⟩
      omega
    · intro h
      omega

/-- **C8, witness.** -/
theorem c8_save_insights_bound_witness :
    ∃ cache', save_insights 5 1 "b" PyVal.none [("a", ⟨"3", PyVal.none⟩)] = .ok cache' ∧
      cache'.length ≤ 1 ∧
      (1 ≤ ([("a", (⟨"3", PyVal.none⟩ : CacheEntry))]).length →
        ∃ cleaned, cleanup_oldest_entries 1 [("a", ⟨"3", PyVal.none⟩)] = .ok cleaned ∧
          cleaned.length =
            ([("a", (⟨"3", PyVal.none⟩ : CacheEntry))]).length -
              min (max 1 (1 / 4)) ([("a", (⟨"3", PyVal.none⟩ : CacheEntry))]).length ∧
          cache' = setKey cleaned "b" ⟨isoformat 5, PyVal.none⟩) := by
  refine c8_save_insights_bound 5 1 "b" PyVal.none [("a", ⟨"3", PyVal.none⟩)]
    (by norm_num) (by norm_num) (by simp) ?_
  intro p hp
  simp only [List.mem_singleton] at hp
  subst hp
  exact ⟨3, rfl⟩

/-- **C8, counterexample.**  With `max_cache_size = 0` and an empty cache
(entry count `0 ≤ max_cache_size`), `save_insights` triggers the cleanup,
which removes nothing, and then inserts: the resulting count 1 exceeds
`max_cache_size = 0`. -/
theorem c8_zero_capacity_counterexample :
    save_insights 5 0 "k" PyVal.none [] = .ok [("k", ⟨"5", PyVal.none⟩)] ∧
    ([] : List (String × CacheEntry)).length ≤ 0 ∧
    ¬ ([("k", (⟨"5", PyVal.none⟩ : CacheEntry))].length ≤ 0) := by
  refine ⟨?_, by simp, by simp⟩
  unfold save_insights cleanup_oldest_entries
  rw [if_pos (by simp)]
  show Except.ok (setKey (List.foldl delKey ([] : List (String × CacheEntry))
      (((List.mergeSort ([] : List (Nat × (String × CacheEntry)))
          fun a b => decide (a.1 ≤ b.1)).take (max 1 (0 / 4))).map (fun q => q.2.1)))
      "k" ⟨isoformat 5, PyVal.none⟩) = Except.ok [("k", ⟨"5", PyVal.none⟩)]
  rw [List.mergeSort_nil]
  rfl

/-! ## C9 — fingerprint determinism -/

theorem mapE_asStr (dims : List String) : mapE asStr (dims.map PyVal.s) = .ok dims := by
  induction dims with
  | nil => rfl
  | cons d rest ih =>
    show (asStr (PyVal.s d) >>= fun y => mapE asStr (rest.map PyVal.s) >>= fun ys =>
      pure (y :: ys)) = _
    rw [show asStr (PyVal.s d) = .ok d from rfl, ih]
    rfl

theorem sortStrings_eq_of_perm {dims1 dims2 : List String} (hperm : dims1.Perm dims2) :
    dims1.mergeSort (fun a b => decide (a ≤ b)) =
    dims2.mergeSort (fun a b => decide (a ≤ b)) := by
  have htrans : ∀ a b c : String, decide (a ≤ b) → decide (b ≤ c) → decide (a ≤ c) := by
    intro a b c hab hbc
    simp only [decide_eq_true_eq] at hab hbc ⊢
    exact le_trans hab hbc
  have htotal : ∀ a b : String, decide (a ≤ b) || decide (b ≤ a) := by
    intro a b
    rcases le_total a b with h | h <;> simp [h]
  have hs1 := List.sorted_mergeSort htrans htotal dims1
  have hs2 := List.sorted_mergeSort htrans htotal dims2
  have hp : (dims1.mergeSort (fun a b => decide (a ≤ b))).Perm
      (dims2.mergeSort (fun a b => decide (a ≤ b))) :=
    ((List.mergeSort_perm dims1 _).trans hperm).trans (List.mergeSort_perm dims2 _).symm
  refine List.eq_of_perm_of_sorted (r := fun a b : String => a ≤ b) hp ?_ ?_
  · exact hs1.imp (fun h => by simpa using h)
  · exact hs2.imp (fun h => by simpa using h)

/-- **C9, confirmed.**  The fingerprint is a deterministic function of the
normalized request shape: two requests that agree on `property_id`,
`date_range`, `baseline_rates` and on the dimensions list up to reordering
receive the same cache key. -/
theorem c9_fingerprint_deterministic (data1 data2 : List (String × PyVal))
    (dims1 dims2 : List String)
    (h1 : getF data1 "dimensions" (.l []) = .l (dims1.map PyVal.s))
    (h2 : getF data2 "dimensions" (.l []) = .l (dims2.map PyVal.s))
    (hperm : dims1.Perm dims2)
    (hp : getF data1 "property_id" PyVal.none = getF data2 "property_id" PyVal.none)
    (hd : getF data1 "date_range" PyVal.none = getF data2 "date_range" PyVal.none)
    (hb : getF data1 "baseline_rates" PyVal.none = getF data2 "baseline_rates" PyVal.none) :
    generate_cache_key data1 = generate_cache_key data2 := by
  have e1 : generate_cache_key data1 = .ok (md5Hex (dumpsSorted (.o
      [("dimensions", .l ((dims1.mergeSort (fun a b => decide (a ≤ b))).map PyVal.s)),
       ("property_id", getF data1 "property_id" PyVal.none),
       ("date_range", getF data1 "date_range" PyVal.none),
       ("baseline_rates", getF data1 "baseline_rates" PyVal.none)]))) := by
    unfold generate_cache_key
    rw [h1]
    show (mapE asStr (dims1.map PyVal.s) >>= fun dims => _) = _
    rw [mapE_asStr]
    rfl
  have e2 : generate_cache_key data2 = .ok (md5Hex (dumpsSorted (.o
      [("dimensions", .l ((dims2.mergeSort (fun a b => decide (a ≤ b))).map PyVal.s)),
       ("property_id", getF data2 "property_id" PyVal.none),
       ("date_range", getF data2 "date_range" PyVal.none),
       ("baseline_rates", getF data2 "baseline_rates" PyVal.none)]))) := by
    unfold generate_cache_key
    rw [h2]
    show (mapE asStr (dims2.map PyVal.s) >>= fun dims => _) = _
    rw [mapE_asStr]
    rfl
  rw [e1, e2, hp, hd, hb, sortStrings_eq_of_perm hperm]

/-- **C9, witness.**  Two requests with the dimension lists in different
orders and the fields themselves in different dict orders hash identically. -/
theorem c9_fingerprint_deterministic_witness :
    generate_cache_key
      [("dimensions", PyVal.l [PyVal.s "deviceCategory", PyVal.s "browser"]),
       ("property_id", PyVal.s "p1")] =
    generate_cache_key
      [("property_id", PyVal.s "p1"),
       ("dimensions", PyVal.l [PyVal.s "browser", PyVal.s "deviceCategory"])] :=
  c9_fingerprint_deterministic _ _ ["deviceCategory", "browser"] ["browser", "deviceCategory"]
    rfl rfl (by decide) rfl rfl rfl

/-! ## C3 — the storage optimizer applied twice -/

theorem bind_pure_eq_map {α β : Type} (x : Except String α) (g : α → β) :
    (x >>= fun a => pure (g a)) = x.map g := by
  cases x <;> rfl

theorem bind_ok_inv {α β : Type} {x : Except String α} {f : α → Except String β} {b : β}
    (h : (x >>= f) = .ok b) : ∃ a, x = .ok a ∧ f a = .ok b := by
  cases x with
  | error e => exact absurd h (by simp [show (Except.error e >>= f) = Except.error e from rfl])
  | ok a => exact ⟨a, rfl, h⟩

theorem error_ne_ok {α : Type} {e : String} {a : α} :
    (Except.error e : Except String α) ≠ .ok a := by
  simp

theorem slice_of_sliced {n : Nat} {v : PyVal} (h : SlicedVal n v) : pySlice v n = .ok v := by
  rcases h with ⟨s, rfl, hlen⟩ | ⟨vs, rfl, hlen⟩
  · show Except.ok (PyVal.s (String.mk (s.data.take n))) = Except.ok (PyVal.s s)
    rw [List.take_of_length_le hlen]
  · show Except.ok (PyVal.l (vs.take n)) = Except.ok (PyVal.l vs)
    rw [List.take_of_length_le hlen]

theorem pySlice_shape {n : Nat} {v w : PyVal} (h : pySlice v n = .ok w) : SlicedVal n w := by
  cases v <;> simp [pySlice] at h
  · subst h
    refine Or.inl ⟨_, rfl, ?_⟩
    simp [List.length_take]
  · subst h
    refine Or.inr ⟨_, rfl, ?_⟩
    simp [List.length_take]

theorem prepCritical_o (fs : List (String × PyVal)) :
    prepCritical (.o fs) = (pySlice (getF fs "issue" (.s "")) 200).map
      (fun issue => .o [("dimension", getF fs "dimension" PyVal.none),
        ("value", getF fs "value" PyVal.none),
        ("issue", issue),
        ("impact", getF fs "impact" PyVal.none)]) := by
  show (pySlice (getF fs "issue" (.s "")) 200 >>= fun issue => pure _) = _
  exact bind_pure_eq_map _ _

theorem prepOpportunity_o (fs : List (String × PyVal)) :
    prepOpportunity (.o fs) = (pySlice (getF fs "opportunity" (.s "")) 200).map
      (fun opportunity => .o [("dimension", getF fs "dimension" PyVal.none),
        ("value", getF fs "value" PyVal.none),
        ("opportunity", opportunity),
        ("potential_lift", getF fs "potential_lift" PyVal.none)]) := by
  show (pySlice (getF fs "opportunity" (.s "")) 200 >>= fun opportunity => pure _) = _
  exact bind_pure_eq_map _ _

theorem prepRecommendation_o (fs : List (String × PyVal)) :
    prepRecommendation (.o fs) = (pySlice (getF fs "action" (.s "")) 150).bind
      (fun action => (pySlice (getF fs "expected_impact" (.s "")) 100).map
        (fun impact => .o [("priority", getF fs "priority" PyVal.none),
          ("action", action),
          ("impact", impact),
          ("implementation", getF fs "implementation" PyVal.none)])) := by
  show (pySlice (getF fs "action" (.s "")) 150 >>= fun action =>
    pySlice (getF fs "expected_impact" (.s "")) 100 >>= fun impact => pure _) = _
  cases pySlice (getF fs "action" (.s "")) 150 with
  | error e => rfl
  | ok a =>
    show (pySlice (getF fs "expected_impact" (.s "")) 100 >>= fun impact => pure _) = _
    exact bind_pure_eq_map _ _

theorem prepCritical_shape {i c : PyVal} (h : prepCritical i = .ok c) : CritShape c := by
  cases i
  case none => exact absurd h error_ne_ok
  case b => exact absurd h error_ne_ok
  case i => exact absurd h error_ne_ok
  case s => exact absurd h error_ne_ok
  case l => exact absurd h error_ne_ok
  rename_i fs
  rw [prepCritical_o] at h
  cases hs : pySlice (getF fs "issue" (.s "")) 200 with
  | error e => rw [hs] at h; exact absurd h (by simp [Except.map])
  | ok w =>
    rw [hs] at h
    simp only [Except.map, Except.ok.injEq] at h
    exact ⟨_, _, w, _, h.symm, pySlice_shape hs⟩

theorem prepOpportunity_shape {i c : PyVal} (h : prepOpportunity i = .ok c) : OppShape c := by
  cases i
  case none => exact absurd h error_ne_ok
  case b => exact absurd h error_ne_ok
  case i => exact absurd h error_ne_ok
  case s => exact absurd h error_ne_ok
  case l => exact absurd h error_ne_ok
  rename_i fs
  rw [prepOpportunity_o] at h
  cases hs : pySlice (getF fs "opportunity" (.s "")) 200 with
  | error e => rw [hs] at h; exact absurd h (by simp [Except.map])
  | ok w =>
    rw [hs] at h
    simp only [Except.map, Except.ok.injEq] at h
    exact ⟨_, _, w, _, h.symm, pySlice_shape hs⟩

theorem prepRecommendation_shape {i c : PyVal} (h : prepRecommendation i = .ok c) :
    RecShape c := by
  cases i
  case none => exact absurd h error_ne_ok
  case b => exact absurd h error_ne_ok
  case i => exact absurd h error_ne_ok
  case s => exact absurd h error_ne_ok
  case l => exact absurd h error_ne_ok
  rename_i fs
  rw [prepRecommendation_o] at h
  cases ha : pySlice (getF fs "action" (.s "")) 150 with
  | error e => rw [ha] at h; exact absurd h (by simp [Except.bind])
  | ok a =>
    rw [ha] at h
    simp only [Except.bind] at h
    cases hi : pySlice (getF fs "expected_impact" (.s "")) 100 with
    | error e => rw [hi] at h; exact absurd h (by simp [Except.map])
    | ok w =>
      rw [hi] at h
      simp only [Except.map, Except.ok.injEq] at h
      exact ⟨_, a, w, _, h.symm, pySlice_shape ha, pySlice_shape hi⟩

theorem prepCritical_fix {c : PyVal} (h : CritShape c) : prepCritical c = .ok c := by
  obtain ⟨d, vv, iss, imp, rfl, hsl⟩ := h
  rw [prepCritical_o,
    show getF [("dimension", d), ("value", vv), ("issue", iss), ("impact", imp)]
      "issue" (.s "") = iss from rfl,
    slice_of_sliced hsl]
  rfl

theorem prepOpportunity_fix {c : PyVal} (h : OppShape c) : prepOpportunity c = .ok c := by
  obtain ⟨d, vv, opp, lift, rfl, hsl⟩ := h
  rw [prepOpportunity_o,
    show getF [("dimension", d), ("value", vv), ("opportunity", opp), ("potential_lift", lift)]
      "opportunity" (.s "") = opp from rfl,
    slice_of_sliced hsl]
  rfl

theorem prepRecommendation_fix {c : PyVal} (h : RecShape c) :
    prepRecommendation c = .ok (resetRecImpact c) := by
  obtain ⟨p, a, i, impl, rfl, hsa, _⟩ := h
  rw [prepRecommendation_o,
    show getF [("priority", p), ("action", a), ("impact", i), ("implementation", impl)]
      "action" (.s "") = a from rfl,
    show getF [("priority", p), ("action", a), ("impact", i), ("implementation", impl)]
      "expected_impact" (.s "") = .s "" from rfl,
    slice_of_sliced hsa]
  rfl

theorem mapE_ok_shape {α β : Type} {f : α → Except String β} {P : β → Prop}
    (hf : ∀ x y, f x = .ok y → P y) :
    ∀ {l : List α} {ys : List β}, mapE f l = .ok ys → (∀ y ∈ ys, P y) ∧ ys.length = l.length := by
  intro l
  induction l with
  | nil =>
    intro ys h
    have h' : (Except.ok [] : Except String (List β)) = .ok ys := h
    have : ys = [] := by simpa using h'
    subst this
    exact ⟨by simp, rfl⟩
  | cons x xs ih =>
    intro ys h
    obtain ⟨y, hy, h⟩ := bind_ok_inv h
    obtain ⟨ys', hys', h⟩ := bind_ok_inv h
    have h' : (Except.ok (y :: ys') : Except String (List β)) = .ok ys := h
    have : ys = y :: ys' := by simpa using h'.symm
    subst this
    obtain ⟨hall, hlen⟩ := ih hys'
    refine ⟨?_, by simp [hlen]⟩
    intro z hz
    rcases List.mem_cons.mp hz with rfl | hz'
    · exact hf _ _ hy
    · exact hall z hz'

theorem mapE_congr_ok {α β : Type} {f : α → Except String β} {g : α → β} :
    ∀ {l : List α}, (∀ x ∈ l, f x = .ok (g x)) → mapE f l = .ok (l.map g) := by
  intro l
  induction l with
  | nil => intro _; rfl
  | cons x xs ih =>
    intro hall
    show (f x >>= fun y => mapE f xs >>= fun ys => pure (y :: ys)) = _
    rw [hall x (List.mem_cons_self x xs), ih (fun z hz => hall z (List.mem_cons_of_mem _ hz))]
    rfl

theorem prepare_shape {insights y : List (String × PyVal)}
    (h : prepare_for_n8n_storage insights = .ok y) : PreparedShape y := by
  unfold prepare_for_n8n_storage at h
  obtain ⟨l1, hl1, h⟩ := bind_ok_inv h
  obtain ⟨cs, hcs, h⟩ := bind_ok_inv h
  obtain ⟨l2, hl2, h⟩ := bind_ok_inv h
  obtain ⟨os, hos, h⟩ := bind_ok_inv h
  obtain ⟨l3, hl3, h⟩ := bind_ok_inv h
  obtain ⟨rs, hrs, h⟩ := bind_ok_inv h
  have h' : (Except.ok [("model", getF insights "model" PyVal.none),
      ("critical_issues", .l cs), ("opportunities", .l os), ("recommendations", .l rs)] :
      Except String (List (String × PyVal))) = .ok y := h
  have hy : y = [("model", getF insights "model" PyVal.none),
      ("critical_issues", .l cs), ("opportunities", .l os), ("recommendations", .l rs)] := by
    simpa using h'.symm
  subst hy
  obtain ⟨hcsh, hcsl⟩ := mapE_ok_shape (fun x y h => prepCritical_shape h) hcs
  obtain ⟨hosh, hosl⟩ := mapE_ok_shape (fun x y h => prepOpportunity_shape h) hos
  obtain ⟨hrsh, hrsl⟩ := mapE_ok_shape (fun x y h => prepRecommendation_shape h) hrs
  refine ⟨_, cs, os, rs, rfl, ?_, ?_, ?_, hcsh, hosh, hrsh⟩
  · rw [hcsl]; simp [List.length_take]
  · rw [hosl]; simp [List.length_take]
  · rw [hrsl]; simp [List.length_take]

theorem prepare_fix {y : List (String × PyVal)} (h : PreparedShape y) :
    prepare_for_n8n_storage y = .ok (resetRecImpacts y) := by
  obtain ⟨m, cs, os, rs, rfl, h5c, h5o, h5r, hc, ho, hr⟩ := h
  have hmc : mapE prepCritical cs = .ok cs := by
    have := mapE_congr_ok (g := fun c => c) (fun c hcm => prepCritical_fix (hc c hcm))
    simpa using this
  have hmo : mapE prepOpportunity os = .ok os := by
    have := mapE_congr_ok (g := fun c => c) (fun c hcm => prepOpportunity_fix (ho c hcm))
    simpa using this
  have hmr : mapE prepRecommendation rs = .ok (rs.map resetRecImpact) :=
    mapE_congr_ok (fun c hcm => prepRecommendation_fix (hr c hcm))
  unfold prepare_for_n8n_storage
  show (mapE prepCritical (cs.take 5) >>= _) = _
  rw [List.take_of_length_le h5c, hmc]
  show (mapE prepOpportunity (os.take 5) >>= _) = _
  rw [List.take_of_length_le h5o, hmo]
  show (mapE prepRecommendation (rs.take 5) >>= _) = _
  rw [List.take_of_length_le h5r, hmr]
  rfl

theorem list_map_eq_self_iff {α : Type} {f : α → α} :
    ∀ {l : List α}, l.map f = l ↔ ∀ x ∈ l, f x = x := by
  intro l
  induction l with
  | nil => simp
  | cons x xs ih =>
    simp only [List.map_cons, List.cons.injEq, List.mem_cons]
    constructor
    · rintro ⟨hx, hxs⟩ z hz
      rcases hz with rfl | hz'
      · exact hx
      · exact (ih.mp hxs) z hz'
    · intro hall
      exact ⟨hall x (Or.inl rfl), ih.mpr (fun z hz => hall z (Or.inr hz))⟩

theorem resetRecImpact_shaped (p a i impl : PyVal) :
    resetRecImpact (.o [("priority", p), ("action", a), ("impact", i),
      ("implementation", impl)]) =
    .o [("priority", p), ("action", a), ("impact", .s ""), ("implementation", impl)] := rfl

/-- **C3, corrected (amended).**  The optimizer is *not* byte-idempotent: a
second pass reproduces the `model`, `critical_issues` and `opportunities`
portions unchanged (no further truncation, renaming or dropping), but
rewrites every stored recommendation's `impact` to the empty string, because
it reads `expected_impact` — a key the first pass renamed to `impact`.
Byte-identity holds exactly when every stored recommendation's `impact` is
already the empty string — in particular for payloads with no
recommendations. -/
theorem c3_optimizer_second_pass (insights y : List (String × PyVal))
    (h : prepare_for_n8n_storage insights = .ok y) :
    prepare_for_n8n_storage y = .ok (resetRecImpacts y) ∧
    (∀ rs, getF y "recommendations" (.l []) = .l rs →
      (prepare_for_n8n_storage y = .ok y ↔
        ∀ p a i impl, PyVal.o [("priority", p), ("action", a), ("impact", i),
          ("implementation", impl)] ∈ rs → i = .s "")) ∧
    (getF y "recommendations" (.l []) = .l [] → prepare_for_n8n_storage y = .ok y) := by
  have hshape := prepare_shape h
  have hfix := prepare_fix hshape
  obtain ⟨m, cs, os, rs0, hy, h5c, h5o, h5r, hc, ho, hr⟩ := hshape
  subst hy
  have hres : resetRecImpacts [("model", m), ("critical_issues", .l cs),
      ("opportunities", .l os), ("recommendations", .l rs0)] =
      [("model", m), ("critical_issues", .l cs), ("opportunities", .l os),
        ("recommendations", .l (rs0.map resetRecImpact))] := rfl
  refine ⟨hfix, ?_, ?_⟩
  · intro rs hrs
    have hrs0 : rs = rs0 := by
      have h' : PyVal.l rs0 = PyVal.l rs := hrs
      have := h'.symm
      simpa using this
    subst hrs0
    constructor
    · intro hid
      have heq : resetRecImpacts [("model", m), ("critical_issues", .l cs),
          ("opportunities", .l os), ("recommendations", .l rs)] =
          [("model", m), ("critical_issues", .l cs), ("opportunities", .l os),
            ("recommendations", .l rs)] := by
        have h2 := hfix.symm.trans hid
        simpa using h2
      rw [hres] at heq
      have hmap : rs.map resetRecImpact = rs := by
        simp only [List.cons.injEq, Prod.mk.injEq, PyVal.l.injEq, true_and, and_true] at heq
        exact heq
      intro p a i impl hmem
      have hfr := list_map_eq_self_iff.mp hmap _ hmem
      rw [resetRecImpact_shaped] at hfr
      have : PyVal.s "" = i := by
        simp only [PyVal.o.injEq, List.cons.injEq, Prod.mk.injEq, true_and, and_true] at hfr
        exact hfr
      exact this.symm
    · intro hemp
      rw [hfix, hres]
      have hmap : rs.map resetRecImpact = rs := by
        apply list_map_eq_self_iff.mpr
        intro r hrm
        obtain ⟨p, a, i, impl, rfl, -, -⟩ := hr r hrm
        rw [resetRecImpact_shaped, hemp p a i impl hrm]
      rw [hmap]
  · intro hre
    have hrs : rs0 = [] := by
      have h' : PyVal.l rs0 = PyVal.l [] := hre
      simpa using h'
    subst hrs
    exact hfix

/-- **C3, counterexample.**  Applying the optimizer twice to a payload with
one recommendation is not byte-identical to applying it once: the second
pass empties the recommendation's `impact` field. -/
theorem c3_idempotence_counterexample :
    prepare_for_n8n_storage c3ex0 = .ok c3y1 ∧
    prepare_for_n8n_storage c3y1 = .ok c3y2 ∧
    pyDumps (.o c3y2) ≠ pyDumps (.o c3y1) := by
  refine ⟨rfl, rfl, ?_⟩
  decide

/-- **C3, witness.** -/
theorem c3_optimizer_second_pass_witness :
    prepare_for_n8n_storage c3y1 = .ok (resetRecImpacts c3y1) :=
  (c3_optimizer_second_pass c3ex0 c3y1 rfl).1

/-! ## Lemmas about `detect_funnel_outliers` -/

theorem key_unique {α : Type} {l : List (String × α)} (hnd : (l.map Prod.fst).Nodup)
    {k : String} {a b : α} (ha : (k, a) ∈ l) (hb : (k, b) ∈ l) : a = b := by
  induction l with
  | nil => simp at ha
  | cons p t ih =>
    rcases List.mem_cons.mp ha with rfl | ha'
    · rcases List.mem_cons.mp hb with hpb | hb'
      · have h2 : b = a ∧ k = k := by
          have := hpb
          simp only [Prod.mk.injEq] at this
          exact ⟨this.2, rfl⟩
        exact h2.1.symm
      · exfalso
        have : k ∈ t.map Prod.fst := List.mem_map.mpr ⟨(k, b), hb', rfl⟩
        simp only [List.map_cons, List.nodup_cons] at hnd
        exact hnd.1 this
    · rcases List.mem_cons.mp hb with rfl | hb'
      · exfalso
        have : k ∈ t.map Prod.fst := List.mem_map.mpr ⟨(k, a), ha', rfl⟩
        simp only [List.map_cons, List.nodup_cons] at hnd
        exact hnd.1 this
      · exact ih (by simp only [List.map_cons, List.nodup_cons] at hnd; exact hnd.2) ha' hb'

theorem pydiv_ne {a b : ℚ} (h : b ≠ 0) : pydiv a b = .ok (a / b) := by
  unfold pydiv
  rw [if_neg h]

theorem pydiv_zero (a : ℚ) : pydiv a 0 = .error "ZeroDivisionError" := by
  unfold pydiv
  rw [if_pos rfl]

theorem if_pure_ok {α : Type} {c : Prop} [Decidable c] {a b : α} :
    (if c then (pure a : Except String α) else pure b) = .ok (if c then a else b) := by
  split_ifs <;> rfl

theorem evalPair_eq_fun {dim : String} {baseline_rates : List (String × ℚ)} {threshold : ℚ}
    {value : String} {metrics : DimensionMetric}
    (hb3 : getRate baseline_rates "overall_conversion" 1 ≠ 0) :
    evalPair dim baseline_rates threshold value metrics =
      .ok (evalPairFun dim baseline_rates threshold value metrics) := by
  simp only [evalPair, evalPairFun]
  by_cases hskip : (getRate baseline_rates "view_item_to_add_to_cart" 0 = 0 ∨
      getRate baseline_rates "add_to_cart_to_purchase" 0 = 0)
  · rw [if_pos hskip, if_pos hskip]
    rfl
  · rw [if_neg hskip, if_neg hskip]
    push_neg at hskip
    rw [pydiv_ne hskip.1, pydiv_ne hskip.2, pydiv_ne hb3]
    exact if_pure_ok

theorem evalPairFun_isSome_iff {dim : String} {baseline_rates : List (String × ℚ)}
    {threshold : ℚ} {value : String} {m : DimensionMetric}
    (hb1 : getRate baseline_rates "view_item_to_add_to_cart" 0 ≠ 0)
    (hb2 : getRate baseline_rates "add_to_cart_to_purchase" 0 ≠ 0) :
    (evalPairFun dim baseline_rates threshold value m).isSome ↔
      (|(m.view_to_cart_rate - getRate baseline_rates "view_item_to_add_to_cart" 0) /
          getRate baseline_rates "view_item_to_add_to_cart" 0| > threshold ∨
       |(m.cart_to_purchase_rate - getRate baseline_rates "add_to_cart_to_purchase" 0) /
          getRate baseline_rates "add_to_cart_to_purchase" 0| > threshold ∨
       |(m.overall_conversion_rate - getRate baseline_rates "overall_conversion" 0) /
          getRate baseline_rates "overall_conversion" 1| > threshold) := by
  simp only [evalPairFun]
  rw [if_neg (by push_neg; exact ⟨hb1, hb2⟩)]
  split_ifs with h h2
  · exact iff_of_true (by simp) h
  · exact iff_of_true (by simp) h
  · exact iff_of_false (by simp) h

theorem evalPairFun_mem_fields {dim : String} {baseline_rates : List (String × ℚ)}
    {threshold : ℚ} {value : String} {m : DimensionMetric} {o : Outlier}
    (h : evalPairFun dim baseline_rates threshold value m = some o) :
    o.dimension_value = value ∧
    o.severity = calculate_severity
      ((m.overall_conversion_rate - getRate baseline_rates "overall_conversion" 0) /
        getRate baseline_rates "overall_conversion" 1) threshold := by
  simp only [evalPairFun] at h
  split_ifs at h with hg hc hp
  all_goals
    simp only [Option.some.injEq] at h
    subst h
    exact ⟨rfl, rfl⟩

theorem collectOutliers_ok {dim : String} {baseline_rates : List (String × ℚ)} {threshold : ℚ}
    (hb3 : getRate baseline_rates "overall_conversion" 1 ≠ 0) :
    ∀ values : List (String × DimensionMetric),
      collectOutliers dim baseline_rates threshold values =
        .ok (values.filterMap (fun vm => evalPairFun dim baseline_rates threshold vm.1 vm.2)) := by
  intro values
  induction values with
  | nil => rfl
  | cons vm rest ih =>
    show (evalPair dim baseline_rates threshold vm.1 vm.2 >>= fun o =>
      collectOutliers dim baseline_rates threshold rest >>= fun os =>
        match o with
        | some out => pure (out :: os)
        | Option.none => pure os) = _
    rw [evalPair_eq_fun hb3, ih]
    cases hef : evalPairFun dim baseline_rates threshold vm.1 vm.2 with
    | none =>
      rw [List.filterMap_cons, hef]
      rfl
    | some out =>
      rw [List.filterMap_cons, hef]
      rfl

theorem go_eq_groupsFun {baseline_rates : List (String × ℚ)} {threshold : ℚ}
    (hb3 : getRate baseline_rates "overall_conversion" 1 ≠ 0) :
    ∀ table, detect_funnel_outliers.go baseline_rates threshold table =
      .ok (groupsFun baseline_rates threshold table) := by
  intro table
  induction table with
  | nil => rfl
  | cons dv rest ih =>
    show (collectOutliers dv.1 baseline_rates threshold dv.2 >>= fun dimension_outliers =>
      detect_funnel_outliers.go baseline_rates threshold rest >>= fun out =>
        if dimension_outliers = [] then pure out
        else pure ((dv.1, sortOutliers dimension_outliers) :: out)) = _
    rw [collectOutliers_ok hb3, ih]
    simp only [groupsFun]
    exact if_pure_ok

theorem detect_eq_groupsFun {funnel_metrics : List (String × List (String × DimensionMetric))}
    {baseline_rates : List (String × ℚ)} {threshold? : Option ℚ}
    (hb3 : getRate baseline_rates "overall_conversion" 1 ≠ 0) :
    detect_funnel_outliers funnel_metrics baseline_rates threshold? =
      .ok (groupsFun baseline_rates (threshold?.getD OUTLIER_THRESHOLD) funnel_metrics) := by
  unfold detect_funnel_outliers
  exact go_eq_groupsFun hb3 funnel_metrics

theorem lookup_cons_ne {β : Type} {k a : String} {b : β} {es : List (String × β)}
    (h : a ≠ k) : ((k, b) :: es).lookup a = es.lookup a := by
  rw [List.lookup_cons, beq_eq_false_iff_ne.mpr h]

theorem groupsFun_lookup_of_not_mem {baseline_rates : List (String × ℚ)} {threshold : ℚ}
    {dim : String} :
    ∀ {table}, dim ∉ table.map Prod.fst →
      (groupsFun baseline_rates threshold table).lookup dim = Option.none := by
  intro table
  induction table with
  | nil => intro _; rfl
  | cons dv rest ih =>
    intro hnm
    have hne : dim ≠ dv.1 := by
      intro h
      exact hnm (by simp [h])
    have hnm' : dim ∉ rest.map Prod.fst := by
      intro h
      exact hnm (by simp [h])
    simp only [groupsFun]
    split_ifs
    · exact ih hnm'
    · rw [lookup_cons_ne hne]
      exact ih hnm'

theorem groupsFun_lookup_mem {baseline_rates : List (String × ℚ)} {threshold : ℚ}
    {dim : String} {values : List (String × DimensionMetric)} :
    ∀ {table}, (table.map Prod.fst).Nodup → (dim, values) ∈ table →
      (groupsFun baseline_rates threshold table).lookup dim =
        (if values.filterMap
            (fun vm => evalPairFun dim baseline_rates threshold vm.1 vm.2) = [] then
          Option.none
        else
          some (sortOutliers (values.filterMap
            (fun vm => evalPairFun dim baseline_rates threshold vm.1 vm.2)))) := by
  intro table
  induction table with
  | nil => intro _ h; simp at h
  | cons dv rest ih =>
    intro hnd hmem
    simp only [List.map_cons, List.nodup_cons] at hnd
    rcases List.mem_cons.mp hmem with heq | hmem'
    · have hd : dv.1 = dim := by rw [← heq]
      have hv : dv.2 = values := by rw [← heq]
      have hnm : dim ∉ rest.map Prod.fst := hd ▸ hnd.1
      simp only [groupsFun, hd, hv]
      split_ifs with hde
      · exact groupsFun_lookup_of_not_mem hnm
      · exact List.lookup_cons_self
    · have hne : dim ≠ dv.1 := by
        intro h
        exact hnd.1 (h ▸ List.mem_map.mpr ⟨(dim, values), hmem', rfl⟩)
      simp only [groupsFun]
      by_cases hdd :
          dv.2.filterMap (fun vm => evalPairFun dv.1 baseline_rates threshold vm.1 vm.2) = []
      · rw [if_pos hdd]
        exact ih hnd.2 hmem'
      · rw [if_neg hdd, lookup_cons_ne hne]
        exact ih hnd.2 hmem'

theorem calculate_severity_bands (d T : ℚ) :
    (calculate_severity d T = "critical" ↔ T * 2 ≤ |d|) ∧
    (calculate_severity d T = "high" ↔ T * 1.5 ≤ |d| ∧ |d| < T * 2) ∧
    (calculate_severity d T = "medium" ↔ T ≤ |d| ∧ |d| < T * 1.5) ∧
    (calculate_severity d T = "low" ↔ |d| < T) := by
  have habs : (0 : ℚ) ≤ |d| := abs_nonneg d
  simp only [calculate_severity]
  split_ifs with h1 h2 h3
  · refine ⟨by simpa using h1, ?_, ?_, ?_⟩
    · simp only [show ("critical" : String) = "high" ↔ False by simp, false_iff]
      rintro ⟨-, hlt⟩
      exact absurd h1 (not_le.mpr hlt)
    · simp only [show ("critical" : String) = "medium" ↔ False by simp, false_iff]
      rintro ⟨-, hlt⟩
      nlinarith
    · simp only [show ("critical" : String) = "low" ↔ False by simp, false_iff]
      intro hlt
      nlinarith
  · refine ⟨?_, ?_, ?_, ?_⟩
    · simp only [show ("high" : String) = "critical" ↔ False by simp, false_iff]
      exact fun hc => h1 hc
    · simp only [show ("high" : String) = "high" ↔ True by simp, true_iff]
      exact ⟨h2, not_le.mp h1⟩
    · simp only [show ("high" : String) = "medium" ↔ False by simp, false_iff]
      rintro ⟨-, hlt⟩
      exact absurd h2 (not_le.mpr hlt)
    · simp only [show ("high" : String) = "low" ↔ False by simp, false_iff]
      intro hlt
      nlinarith
  · refine ⟨?_, ?_, ?_, ?_⟩
    · simp only [show ("medium" : String) = "critical" ↔ False by simp, false_iff]
      exact fun hc => h1 hc
    · simp only [show ("medium" : String) = "high" ↔ False by simp, false_iff]
      rintro ⟨hge, -⟩
      exact h2 hge
    · simp only [show ("medium" : String) = "medium" ↔ True by simp, true_iff]
      exact ⟨h3, not_le.mp h2⟩
    · simp only [show ("medium" : String) = "low" ↔ False by simp, false_iff]
      intro hlt
      exact absurd h3 (not_le.mpr hlt)
  · refine ⟨?_, ?_, ?_, by simpa using not_le.mp h3⟩
    · simp only [show ("low" : String) = "critical" ↔ False by simp, false_iff]
      exact fun hc => h1 hc
    · simp only [show ("low" : String) = "high" ↔ False by simp, false_iff]
      rintro ⟨hge, -⟩
      exact h2 hge
    · simp only [show ("low" : String) = "medium" ↔ False by simp, false_iff]
      rintro ⟨hge, -⟩
      exact h3 hge

/-! ## C6 — strict threshold for outlier flagging -/

/-- **C6, confirmed.**  For an evaluated `(dimension, value)` pair (baseline
rates non-zero, so the pair is not skipped and the call returns),
`detect_funnel_outliers` flags the pair if and only if at least one of the
three deviations strictly exceeds the threshold in absolute value; in
particular a deviation exactly equal to the threshold is not flagged. -/
theorem c6_outlier_iff_strict_threshold
    (funnel_metrics : List (String × List (String × DimensionMetric)))
    (baseline_rates : List (String × ℚ)) (threshold? : Option ℚ)
    (dim value : String) (values : List (String × DimensionMetric)) (m : DimensionMetric)
    (hdims : (funnel_metrics.map Prod.fst).Nodup)
    (hmem : (dim, values) ∈ funnel_metrics)
    (hvals : (values.map Prod.fst).Nodup)
    (hv : (value, m) ∈ values)
    (hb1 : getRate baseline_rates "view_item_to_add_to_cart" 0 ≠ 0)
    (hb2 : getRate baseline_rates "add_to_cart_to_purchase" 0 ≠ 0)
    (hb3 : getRate baseline_rates "overall_conversion" 1 ≠ 0) :
    ∃ out, detect_funnel_outliers funnel_metrics baseline_rates threshold? = .ok out ∧
      (flaggedOutlier out dim value ↔
        (|(m.view_to_cart_rate - getRate baseline_rates "view_item_to_add_to_cart" 0) /
            getRate baseline_rates "view_item_to_add_to_cart" 0| >
              threshold?.getD OUTLIER_THRESHOLD ∨
         |(m.cart_to_purchase_rate - getRate baseline_rates "add_to_cart_to_purchase" 0) /
            getRate baseline_rates "add_to_cart_to_purchase" 0| >
              threshold?.getD OUTLIER_THRESHOLD ∨
         |(m.overall_conversion_rate - getRate baseline_rates "overall_conversion" 0) /
            getRate baseline_rates "overall_conversion" 1| >
              threshold?.getD OUTLIER_THRESHOLD)) := by
  refine ⟨_, detect_eq_groupsFun hb3, ?_⟩
  unfold flaggedOutlier
  simp only [groupsFun_lookup_mem hdims hmem]
  by_cases hde : values.filterMap
      (fun vm => evalPairFun dim baseline_rates (threshold?.getD OUTLIER_THRESHOLD) vm.1 vm.2)
      = []
  · rw [if_pos hde]
    constructor
    · rintro ⟨os, hos, -⟩
      exact absurd hos (by simp)
    · intro hcond
      exfalso
      have hsome : (evalPairFun dim baseline_rates
          (threshold?.getD OUTLIER_THRESHOLD) value m).isSome :=
        (evalPairFun_isSome_iff hb1 hb2).mpr hcond
      obtain ⟨o, ho⟩ := Option.isSome_iff_exists.mp hsome
      have hmemo : o ∈ values.filterMap
          (fun vm => evalPairFun dim baseline_rates
            (threshold?.getD OUTLIER_THRESHOLD) vm.1 vm.2) :=
        List.mem_filterMap.mpr ⟨(value, m), hv, ho⟩
      rw [hde] at hmemo
      simp at hmemo
  · rw [if_neg hde]
    constructor
    · rintro ⟨os, hos, o, ho, hoval⟩
      have hos' : os = sortOutliers (values.filterMap
          (fun vm => evalPairFun dim baseline_rates
            (threshold?.getD OUTLIER_THRESHOLD) vm.1 vm.2)) := by
        simpa using hos.symm
      subst hos'
      have homem : o ∈ values.filterMap
          (fun vm => evalPairFun dim baseline_rates
            (threshold?.getD OUTLIER_THRESHOLD) vm.1 vm.2) := by
        have := ho
        unfold sortOutliers at this
        exact List.mem_mergeSort.mp this
      obtain ⟨vm, hvmmem, hvm⟩ := List.mem_filterMap.mp homem
      have hval : o.dimension_value = vm.1 := (evalPairFun_mem_fields hvm).1
      have hvm1 : vm.1 = value := by rw [← hval, hoval]
      have hvmm : (vm.1, vm.2) ∈ values := by simpa using hvmmem
      rw [hvm1] at hvmm
      have hm : vm.2 = m := key_unique hvals hvmm hv
      have hvm' : evalPairFun dim baseline_rates
          (threshold?.getD OUTLIER_THRESHOLD) value m = some o := by
        rw [← hvm1, ← hm]
        exact hvm
      exact (evalPairFun_isSome_iff hb1 hb2).mp (Option.isSome_iff_exists.mpr ⟨o, hvm'⟩)
    · intro hcond
      have hsome : (evalPairFun dim baseline_rates
          (threshold?.getD OUTLIER_THRESHOLD) value m).isSome :=
        (evalPairFun_isSome_iff hb1 hb2).mpr hcond
      obtain ⟨o, ho⟩ := Option.isSome_iff_exists.mp hsome
      refine ⟨_, rfl, o, ?_, (evalPairFun_mem_fields ho).1⟩
      unfold sortOutliers
      exact List.mem_mergeSort.mpr (List.mem_filterMap.mpr ⟨(value, m), hv, ho⟩)

/-- **C6, witness.** -/
theorem c6_outlier_iff_strict_threshold_witness :
    ∃ out, detect_funnel_outliers [("deviceCategory", [("mobile", c6metric)])]
        c6baseline Option.none = .ok out ∧
      (flaggedOutlier out "deviceCategory" "mobile" ↔
        (|(c6metric.view_to_cart_rate - getRate c6baseline "view_item_to_add_to_cart" 0) /
            getRate c6baseline "view_item_to_add_to_cart" 0| >
              (Option.none : Option ℚ).getD OUTLIER_THRESHOLD ∨
         |(c6metric.cart_to_purchase_rate - getRate c6baseline "add_to_cart_to_purchase" 0) /
            getRate c6baseline "add_to_cart_to_purchase" 0| >
              (Option.none : Option ℚ).getD OUTLIER_THRESHOLD ∨
         |(c6metric.overall_conversion_rate - getRate c6baseline "overall_conversion" 0) /
            getRate c6baseline "overall_conversion" 1| >
              (Option.none : Option ℚ).getD OUTLIER_THRESHOLD)) :=
  c6_outlier_iff_strict_threshold [("deviceCategory", [("mobile", c6metric)])] c6baseline
    Option.none "deviceCategory" "mobile" [("mobile", c6metric)] c6metric
    (by simp) (by simp) (by simp) (by simp)
    (by rw [show getRate c6baseline "view_item_to_add_to_cart" 0 = 1 from rfl]; norm_num)
    (by rw [show getRate c6baseline "add_to_cart_to_purchase" 0 = 1 from rfl]; norm_num)
    (by rw [show getRate c6baseline "overall_conversion" 1 = 1 from rfl]; norm_num)

/-! ## C7 — severity of returned outliers -/

/-- **C7, corrected (amended).**  For every outlier `detect_funnel_outliers`
returns, its severity is `calculate_severity` of the (unrounded) overall
deviation relative to the threshold `T`, with the tiers `≥2T → critical`,
`≥1.5T → high`, `≥T → medium`; but an outlier flagged only by a step
deviation, whose overall deviation is below `T`, carries the fourth tier
`"low"` — such outliers are *not* excluded upstream (see the
counterexample). -/
theorem c7_outlier_severity_bands
    (funnel_metrics : List (String × List (String × DimensionMetric)))
    (baseline_rates : List (String × ℚ)) (threshold? : Option ℚ)
    (dim value : String) (values : List (String × DimensionMetric)) (m : DimensionMetric)
    (hdims : (funnel_metrics.map Prod.fst).Nodup)
    (hmem : (dim, values) ∈ funnel_metrics)
    (hvals : (values.map Prod.fst).Nodup)
    (hv : (value, m) ∈ values)
    (hb1 : getRate baseline_rates "view_item_to_add_to_cart" 0 ≠ 0)
    (hb2 : getRate baseline_rates "add_to_cart_to_purchase" 0 ≠ 0)
    (hb3 : getRate baseline_rates "overall_conversion" 1 ≠ 0) :
    ∃ out, detect_funnel_outliers funnel_metrics baseline_rates threshold? = .ok out ∧
      ∀ os o, out.lookup dim = some os → o ∈ os → o.dimension_value = value →
        (o.severity = calculate_severity
            ((m.overall_conversion_rate - getRate baseline_rates "overall_conversion" 0) /
              getRate baseline_rates "overall_conversion" 1)
            (threshold?.getD OUTLIER_THRESHOLD) ∧
         (o.severity = "critical" ↔ threshold?.getD OUTLIER_THRESHOLD * 2 ≤
            |(m.overall_conversion_rate - getRate baseline_rates "overall_conversion" 0) /
              getRate baseline_rates "overall_conversion" 1|) ∧
         (o.severity = "high" ↔ threshold?.getD OUTLIER_THRESHOLD * 1.5 ≤
            |(m.overall_conversion_rate - getRate baseline_rates "overall_conversion" 0) /
              getRate baseline_rates "overall_conversion" 1| ∧
            |(m.overall_conversion_rate - getRate baseline_rates "overall_conversion" 0) /
              getRate baseline_rates "overall_conversion" 1| <
              threshold?.getD OUTLIER_THRESHOLD * 2) ∧
         (o.severity = "medium" ↔ threshold?.getD OUTLIER_THRESHOLD ≤
            |(m.overall_conversion_rate - getRate baseline_rates "overall_conversion" 0) /
              getRate baseline_rates "overall_conversion" 1| ∧
            |(m.overall_conversion_rate - getRate baseline_rates "overall_conversion" 0) /
              getRate baseline_rates "overall_conversion" 1| <
              threshold?.getD OUTLIER_THRESHOLD * 1.5) ∧
         (o.severity = "low" ↔
            |(m.overall_conversion_rate - getRate baseline_rates "overall_conversion" 0) /
              getRate baseline_rates "overall_conversion" 1| <
              threshold?.getD OUTLIER_THRESHOLD)) := by
  refine ⟨_, detect_eq_groupsFun hb3, ?_⟩
  intro os o hlk ho hoval
  rw [groupsFun_lookup_mem hdims hmem] at hlk
  by_cases hde : values.filterMap
      (fun vm => evalPairFun dim baseline_rates (threshold?.getD OUTLIER_THRESHOLD) vm.1 vm.2)
      = []
  · rw [if_pos hde] at hlk
    exact Option.noConfusion hlk
  · rw [if_neg hde] at hlk
    have hos' : os = sortOutliers (values.filterMap
        (fun vm => evalPairFun dim baseline_rates
          (threshold?.getD OUTLIER_THRESHOLD) vm.1 vm.2)) := by
      simpa using hlk.symm
    subst hos'
    have homem : o ∈ values.filterMap
        (fun vm => evalPairFun dim baseline_rates
          (threshold?.getD OUTLIER_THRESHOLD) vm.1 vm.2) := by
      have := ho
      unfold sortOutliers at this
      exact List.mem_mergeSort.mp this
    obtain ⟨vm, hvmmem, hvm⟩ := List.mem_filterMap.mp homem
    have hval : o.dimension_value = vm.1 := (evalPairFun_mem_fields hvm).1
    have hvm1 : vm.1 = value := by rw [← hval, hoval]
    have hvmm : (vm.1, vm.2) ∈ values := by simpa using hvmmem
    rw [hvm1] at hvmm
    have hm : vm.2 = m := key_unique hvals hvmm hv
    have hvm' : evalPairFun dim baseline_rates
        (threshold?.getD OUTLIER_THRESHOLD) value m = some o := by
      rw [← hvm1, ← hm]
      exact hvm
    have hsev := (evalPairFun_mem_fields hvm').2
    rw [hsev]
    exact ⟨rfl, (calculate_severity_bands _ _).1, (calculate_severity_bands _ _).2.1,
      (calculate_severity_bands _ _).2.2.1, (calculate_severity_bands _ _).2.2.2⟩

/-- **C7, witness.** -/
theorem c7_outlier_severity_bands_witness :
    ∃ out, detect_funnel_outliers [("deviceCategory", [("mobile", c6metric)])]
        c6baseline Option.none = .ok out ∧
      ∀ os o, out.lookup "deviceCategory" = some os → o ∈ os →
        o.dimension_value = "mobile" →
        (o.severity = calculate_severity
            ((c6metric.overall_conversion_rate - getRate c6baseline "overall_conversion" 0) /
              getRate c6baseline "overall_conversion" 1)
            ((Option.none : Option ℚ).getD OUTLIER_THRESHOLD) ∧
         (o.severity = "critical" ↔ (Option.none : Option ℚ).getD OUTLIER_THRESHOLD * 2 ≤
            |(c6metric.overall_conversion_rate - getRate c6baseline "overall_conversion" 0) /
              getRate c6baseline "overall_conversion" 1|) ∧
         (o.severity = "high" ↔ (Option.none : Option ℚ).getD OUTLIER_THRESHOLD * 1.5 ≤
            |(c6metric.overall_conversion_rate - getRate c6baseline "overall_conversion" 0) /
              getRate c6baseline "overall_conversion" 1| ∧
            |(c6metric.overall_conversion_rate - getRate c6baseline "overall_conversion" 0) /
              getRate c6baseline "overall_conversion" 1| <
              (Option.none : Option ℚ).getD OUTLIER_THRESHOLD * 2) ∧
         (o.severity = "medium" ↔ (Option.none : Option ℚ).getD OUTLIER_THRESHOLD ≤
            |(c6metric.overall_conversion_rate - getRate c6baseline "overall_conversion" 0) /
              getRate c6baseline "overall_conversion" 1| ∧
            |(c6metric.overall_conversion_rate - getRate c6baseline "overall_conversion" 0) /
              getRate c6baseline "overall_conversion" 1| <
              (Option.none : Option ℚ).getD OUTLIER_THRESHOLD * 1.5) ∧
         (o.severity = "low" ↔
            |(c6metric.overall_conversion_rate - getRate c6baseline "overall_conversion" 0) /
              getRate c6baseline "overall_conversion" 1| <
              (Option.none : Option ℚ).getD OUTLIER_THRESHOLD)) :=
  c7_outlier_severity_bands [("deviceCategory", [("mobile", c6metric)])] c6baseline
    Option.none "deviceCategory" "mobile" [("mobile", c6metric)] c6metric
    (by simp) (by simp) (by simp) (by simp)
    (by rw [show getRate c6baseline "view_item_to_add_to_cart" 0 = 1 from rfl]; norm_num)
    (by rw [show getRate c6baseline "add_to_cart_to_purchase" 0 = 1 from rfl]; norm_num)
    (by rw [show getRate c6baseline "overall_conversion" 1 = 1 from rfl]; norm_num)

/-- **C7, counterexample.**  `c6metric` deviates +200% on view-to-cart but
0% overall: `detect_funnel_outliers` returns it as an outlier whose severity
is `"low"` — not one of the claimed three tiers. -/
theorem c7_low_severity_counterexample :
    ∃ out os o, detect_funnel_outliers [("deviceCategory", [("mobile", c6metric)])]
        c6baseline Option.none = .ok out ∧
      out.lookup "deviceCategory" = some os ∧ o ∈ os ∧ o.dimension_value = "mobile" ∧
      o.severity = "low" ∧
      o.severity ≠ "critical" ∧ o.severity ≠ "high" ∧ o.severity ≠ "medium" := by
  have hb1 : getRate c6baseline "view_item_to_add_to_cart" 0 ≠ 0 := by
    rw [show getRate c6baseline "view_item_to_add_to_cart" 0 = 1 from rfl]
    norm_num
  have hb2 : getRate c6baseline "add_to_cart_to_purchase" 0 ≠ 0 := by
    rw [show getRate c6baseline "add_to_cart_to_purchase" 0 = 1 from rfl]
    norm_num
  have hb3 : getRate c6baseline "overall_conversion" 1 ≠ 0 := by
    rw [show getRate c6baseline "overall_conversion" 1 = 1 from rfl]
    norm_num
  have hcond : |(c6metric.view_to_cart_rate - getRate c6baseline "view_item_to_add_to_cart" 0) /
      getRate c6baseline "view_item_to_add_to_cart" 0| >
        (Option.none : Option ℚ).getD OUTLIER_THRESHOLD ∨
      |(c6metric.cart_to_purchase_rate - getRate c6baseline "add_to_cart_to_purchase" 0) /
        getRate c6baseline "add_to_cart_to_purchase" 0| >
          (Option.none : Option ℚ).getD OUTLIER_THRESHOLD ∨
      |(c6metric.overall_conversion_rate - getRate c6baseline "overall_conversion" 0) /
        getRate c6baseline "overall_conversion" 1| >
          (Option.none : Option ℚ).getD OUTLIER_THRESHOLD := by
    left
    rw [show c6metric.view_to_cart_rate = 3 from rfl,
      show getRate c6baseline "view_item_to_add_to_cart" 0 = 1 from rfl,
      show (Option.none : Option ℚ).getD OUTLIER_THRESHOLD = 0.20 from rfl]
    norm_num
  have hsome : (evalPairFun "deviceCategory" c6baseline
      ((Option.none : Option ℚ).getD OUTLIER_THRESHOLD) "mobile" c6metric).isSome :=
    (evalPairFun_isSome_iff hb1 hb2).mpr hcond
  obtain ⟨o, ho⟩ := Option.isSome_iff_exists.mp hsome
  have hsev : o.severity = "low" := by
    rw [(evalPairFun_mem_fields ho).2]
    apply (calculate_severity_bands _ _).2.2.2.mpr
    rw [show c6metric.overall_conversion_rate = 1 from rfl,
      show getRate c6baseline "overall_conversion" 0 = 1 from rfl,
      show getRate c6baseline "overall_conversion" 1 = 1 from rfl,
      show (Option.none : Option ℚ).getD OUTLIER_THRESHOLD = 0.20 from rfl]
    norm_num
  have hfm : ([("mobile", c6metric)] : List (String × DimensionMetric)).filterMap
      (fun vm => evalPairFun "deviceCategory" c6baseline
        ((Option.none : Option ℚ).getD OUTLIER_THRESHOLD) vm.1 vm.2) = [o] := by
    rw [List.filterMap_cons]
    rw [show evalPairFun "deviceCategory" c6baseline
      ((Option.none : Option ℚ).getD OUTLIER_THRESHOLD)
      (("mobile", c6metric) : String × DimensionMetric).1
      (("mobile", c6metric) : String × DimensionMetric).2 = some o from ho]
    rfl
  refine ⟨_, sortOutliers [o], o, detect_eq_groupsFun hb3, ?_, ?_,
    (evalPairFun_mem_fields ho).1, hsev, ?_, ?_, ?_⟩
  · have hmm : ("deviceCategory", [("mobile", c6metric)]) ∈
        ([("deviceCategory", [("mobile", c6metric)])] :
          List (String × List (String × DimensionMetric))) := by simp
    rw [groupsFun_lookup_mem (by simp) hmm, hfm]
    rw [if_neg (by simp)]
  · unfold sortOutliers
    exact List.mem_mergeSort.mpr (by simp)
  · rw [hsev]; decide
  · rw [hsev]; decide
  · rw [hsev]; decide

/-! ## C1 — zero `overall_conversion` baseline raises -/

/-- **C1 (code bug).**  With both step baselines non-zero and the
`overall_conversion` baseline present but zero, `detect_funnel_outliers`
raises `ZeroDivisionError` while computing the overall deviation: the
`.get("overall_conversion", 1)` default only protects a *missing* key, not a
zero value, contradicting the claim (and the code's own
"Avoid division by zero" intent). -/
theorem c1_zero_overall_baseline_raises :
    detect_funnel_outliers [("deviceCategory", [("mobile", c1metric)])] c1baseline
      Option.none = .error "ZeroDivisionError" := by
  have h1 : getRate c1baseline "view_item_to_add_to_cart" 0 ≠ 0 := by
    rw [show getRate c1baseline "view_item_to_add_to_cart" 0 = 1 from rfl]
    norm_num
  have h2 : getRate c1baseline "add_to_cart_to_purchase" 0 ≠ 0 := by
    rw [show getRate c1baseline "add_to_cart_to_purchase" 0 = 1 from rfl]
    norm_num
  have he : evalPair "deviceCategory" c1baseline OUTLIER_THRESHOLD "mobile" c1metric =
      .error "ZeroDivisionError" := by
    simp only [evalPair]
    rw [if_neg (by push_neg; exact ⟨h1, h2⟩)]
    rw [pydiv_ne h1, pydiv_ne h2,
      show getRate c1baseline "overall_conversion" 1 = 0 from rfl, pydiv_zero]
    rfl
  have hc : collectOutliers "deviceCategory" c1baseline OUTLIER_THRESHOLD
      [("mobile", c1metric)] = .error "ZeroDivisionError" := by
    show (evalPair "deviceCategory" c1baseline OUTLIER_THRESHOLD "mobile" c1metric >>=
      fun o => collectOutliers "deviceCategory" c1baseline OUTLIER_THRESHOLD [] >>=
        fun os => match o with
          | some out => pure (out :: os)
          | Option.none => pure os) = Except.error "ZeroDivisionError"
    rw [he]
    rfl
  unfold detect_funnel_outliers
  show (collectOutliers "deviceCategory" c1baseline OUTLIER_THRESHOLD [("mobile", c1metric)] >>=
    fun dimension_outliers => detect_funnel_outliers.go c1baseline OUTLIER_THRESHOLD [] >>=
      fun out =>
        if dimension_outliers = [] then pure out
        else pure (("deviceCategory", sortOutliers dimension_outliers) :: out)) =
    Except.error "ZeroDivisionError"
  rw [hc]
  rfl

end GA4
